import Mathlib

/-!
The scrape cycle of `exporter/ldap.go` of 389ds_exporter.

A shallow embedding of the exporter package (`scrapeAll`, `ScrapeMetrics`,
`ldapSubordinatesQuery`, `ldapCountQuery`, `ldapReplicationQuery`) together with
the few library functions it calls, followed by the properties proved about it.

Conventions of the embedding.

* Go `string` is Lean `String`.  Go strings are byte sequences; every pattern the
  package searches for or replaces (`.`, `=`, `,` and the three status phrases) is
  ASCII, and on UTF-8 text a match of such a pattern at byte level is the same as
  a match at character level.
* `float64` is `Float64`: a finite value is the rational number it denotes, and
  rounding is not modelled.  The package only produces the constants `-1`, `0`,
  `1`, conversions of slice lengths (exact in binary64 up to `2 ^ 53`, far above
  the longest slice the Go runtime can allocate), the result of
  `strconv.ParseFloat` and one elapsed time.
* The directory server, the parser of numbers and the clock are collaborators of
  the package.  They are the fields of `Env`; every answer of the directory and of
  the clock may depend on the whole history of the interaction so far.
* Package-level variables (the metric vectors) and the logger output are the
  fields of `State`; the connection `l` is the interaction history `Conn`.
-/

/-! ## Library: `strings` -/

namespace strings

/-- Worker of `Replace` on characters.  The arguments are the remaining number of
replacements (`none`: unlimited), the number of characters of the current match
still to be skipped, and the rest of the input. -/
def replaceChars (old new : List Char) : Option Nat → Nat → List Char → List Char
  | lim, _, [] => if old.isEmpty ∧ lim ≠ some 0 then new else []
  | lim, skip + 1, _ :: cs => replaceChars old new lim skip cs
  | lim, 0, c :: cs =>
    if lim ≠ some 0 ∧ old.isPrefixOf (c :: cs) then
      if old.isEmpty then new ++ c :: replaceChars old new (lim.map (· - 1)) 0 cs
      else new ++ replaceChars old new (lim.map (· - 1)) (old.length - 1) cs
    else c :: replaceChars old new lim 0 cs

/-- Go `strings.Replace(s, old, new, n)`: the first `n` non-overlapping instances
of `old`, found left to right, are replaced by `new`; a negative `n` means no
limit. -/
def Replace (s old new : String) (n : Int) : String :=
  if old = new ∨ n = 0 then s
  else ⟨replaceChars old.data new.data (if n < 0 then none else some n.toNat) 0 s.data⟩

/-- Worker of `Contains`: some tail of the input starts with `substr`. -/
def containsChars (substr : List Char) : List Char → Bool
  | [] => substr.isEmpty
  | c :: cs => substr.isPrefixOf (c :: cs) || containsChars substr cs

/-- Go `strings.Contains(s, substr)`. -/
def Contains (s substr : String) : Bool :=
  containsChars substr.data s.data

/-- Go `strings.Replacer`: the list of (old, new) pairs in argument order. -/
structure Replacer where
  oldnew : List (String × String)

/-- Go `strings.NewReplacer(old1, new1, old2, new2, ...)`. -/
def NewReplacer (oldnew : List (String × String)) : Replacer :=
  ⟨oldnew⟩

/-- The pair that applies at the head of `s`: comparisons are done in argument
order. -/
def Replacer.lookup (r : Replacer) (s : List Char) : Option (String × String) :=
  r.oldnew.find? (fun p => p.1.data.isPrefixOf s)

/-- Worker of `Replacer.Replace`: replacements are performed in the order they
appear in the target string, without overlapping matches.  The second argument is
the number of characters of the current match still to be skipped. -/
def Replacer.replaceChars (r : Replacer) : Nat → List Char → List Char
  | _, [] => []
  | skip + 1, _ :: cs => r.replaceChars skip cs
  | 0, c :: cs =>
    match r.lookup (c :: cs) with
    | some p => p.2.data ++ r.replaceChars (p.1.length - 1) cs
    | none => c :: r.replaceChars 0 cs

/-- Go `(*strings.Replacer).Replace(s)`, for a replacer whose old strings are
all non-empty (as those of `ldap_escaper` are). -/
def Replacer.Replace (r : Replacer) (s : String) : String :=
  ⟨r.replaceChars 0 s.data⟩

/-- Go `strings.Split(s, sep)` for a one-character separator, on characters:
`n` occurrences of the separator give `n + 1` pieces. -/
def splitChars (sep : Char) : List Char → List (List Char)
  | [] => [[]]
  | c :: cs =>
    if c = sep then [] :: splitChars sep cs
    else
      match splitChars sep cs with
      | [] => [[c]]
      | p :: ps => (c :: p) :: ps

/-- Go `strings.Split(s, sep)` for a one-character separator. -/
def Split (s : String) (sep : Char) : List String :=
  (splitChars sep s.data).map String.mk

/-- Go `strings.Join(elems, sep)`. -/
def Join : List String → String → String
  | [], _ => ""
  | [a], _ => a
  | a :: b :: rest, sep => a ++ sep ++ Join (b :: rest) sep

end strings

/-! ## `float64` -/

/-- The values of Go `float64`, finite ones identified with the rational they
denote. -/
inductive Float64 where
  | finite (q : ℚ)
  | posInf
  | negInf
  | nan
  deriving DecidableEq

namespace Float64

/-- Conversion `float64(n)` of an integer. -/
def ofInt (n : Int) : Float64 := finite n

/-- The comparison `x < 0` of Go: false on `NaN`. -/
def isNegative : Float64 → Bool
  | finite q => decide (q < 0)
  | negInf => true
  | _ => false

/-- The comparison `x >= 0` of Go: false on `NaN`. -/
def isNonNegative : Float64 → Bool
  | finite q => decide (0 ≤ q)
  | posInf => true
  | _ => false

end Float64

/-! ## Errors -/

deriving instance DecidableEq for Except

/-- A Go error value that is not an aggregate, identified by its message. -/
structure GoError where
  msg : String
  deriving DecidableEq

/-- The dynamic values of the `error` results of the package (`nil` is `none` of
`Option GoErr`): either an ordinary error or a `*multierror.Error` with its list
`Errors`. -/
inductive GoErr where
  | plain (e : GoError)
  | multi (errs : List GoError)
  deriving DecidableEq

namespace multierror

/-- Go `multierror.Append(err, e)` for an `e` that is not itself an aggregate:
an aggregate `err` gets `e` appended to its `Errors`; any other `err` becomes a
new aggregate of `err` (when not nil) followed by `e`. -/
def Append (err : Option GoErr) (e : GoError) : GoErr :=
  match err with
  | none => .multi [e]
  | some (.multi es) => .multi (es ++ [e])
  | some (.plain e0) => .multi [e0, e]

end multierror

/-! ## Library: `strconv.ParseFloat` -/

namespace strconv

/-- The number written by a list of decimal digits. -/
def digitsValue (ds : List Char) : Nat :=
  ds.foldl (fun n c => 10 * n + (c.toNat - 48)) 0

/-- The special values: `NaN` and the possibly signed `Inf` and `Infinity`,
matched ignoring case. -/
def special (s : String) : Option Float64 :=
  let t : String := ⟨s.data.map Char.toLower⟩
  if t = "inf" ∨ t = "infinity" ∨ t = "+inf" ∨ t = "+infinity" then some .posInf
  else if t = "-inf" ∨ t = "-infinity" then some .negInf
  else if t = "nan" then some .nan
  else none

/-- The decimal syntax: an optional sign, digits with at most one point and at
least one digit, an optional exponent `e` or `E` with optional sign and at least
one digit, and nothing after.  Returns the sign, the digits read as one number
and the power of ten that scales it. -/
def readFloat (s : List Char) : Option (Bool × Nat × Int) :=
  let signed : Bool × List Char :=
    match s with
    | '+' :: r => (false, r)
    | '-' :: r => (true, r)
    | r => (false, r)
  let ip := signed.2.span Char.isDigit
  let fp : List Char × List Char :=
    match ip.2 with
    | '.' :: r => r.span Char.isDigit
    | r => ([], r)
  if ip.1.isEmpty ∧ fp.1.isEmpty then none
  else
    let mant := digitsValue (ip.1 ++ fp.1)
    match fp.2 with
    | [] => some (signed.1, mant, - (fp.1.length : Int))
    | c :: r =>
      if c = 'e' ∨ c = 'E' then
        let esigned : Bool × List Char :=
          match r with
          | '+' :: r1 => (false, r1)
          | '-' :: r1 => (true, r1)
          | r1 => (false, r1)
        let ep := esigned.2.span Char.isDigit
        if ep.1.isEmpty ∨ ¬ ep.2.isEmpty then none
        else
          let e : Int := digitsValue ep.1
          some (signed.1, mant, (if esigned.1 then - e else e) - (fp.1.length : Int))
      else none

/-- The least magnitude that rounds to infinity in binary64, `2 ^ 1024 - 2 ^ 970`
(half a unit in the last place above the largest finite value). -/
def overflowBound : Nat := (2 ^ 54 - 1) * (2 ^ 194) ^ 5

/-- Go `strconv.ParseFloat(s, 64)` on the decimal syntax and the special values
(the syntax of Go before 1.13; later releases also accept hexadecimal mantissas
and digit-separating underscores).  A well-formed number beyond the binary64
range is an error; the value returned is the number written, not rounded.  The
message of the error quotes the input without escaping it. -/
def ParseFloat (s : String) (_bitSize : Nat) : Except GoError Float64 :=
  match special s with
  | some f => .ok f
  | none =>
    match readFloat s.data with
    | none => .error ⟨"strconv.ParseFloat: parsing \"" ++ s ++ "\": invalid syntax"⟩
    | some (neg, mant, k) =>
      let tooBig : Bool :=
        if 0 ≤ k then decide (overflowBound ≤ mant * 10 ^ k.toNat)
        else decide (overflowBound * 10 ^ (- k).toNat ≤ mant)
      if tooBig then
        .error ⟨"strconv.ParseFloat: parsing \"" ++ s ++ "\": value out of range"⟩
      else
        let m : Int := if neg then - (mant : Int) else mant
        if 0 ≤ k then .ok (.finite ((m * 10 ^ k.toNat : Int) : ℚ))
        else .ok (.finite (mkRat m (10 ^ (- k).toNat)))

end strconv

/-! ## Library: `gopkg.in/ldap.v2` -/

namespace ldap

/-- Go `ldap.EntryAttribute`: a name and its values. -/
structure EntryAttribute where
  Name : String
  Values : List String
  deriving DecidableEq

/-- Go `ldap.Entry`. -/
structure Entry where
  DN : String
  Attributes : List EntryAttribute
  deriving DecidableEq

/-- Go `(*Entry).GetAttributeValues`: the values of the first attribute with
exactly this name, or no value. -/
def Entry.GetAttributeValues (e : Entry) (attr : String) : List String :=
  match e.Attributes.find? (fun a => a.Name = attr) with
  | some a => a.Values
  | none => []

/-- Go `(*Entry).GetAttributeValue`: the first of these values, or the empty
string. -/
def Entry.GetAttributeValue (e : Entry) (attr : String) : String :=
  match e.GetAttributeValues attr with
  | [] => ""
  | v :: _ => v

/-- Go `ldap.SearchResult`, of which the package reads only `Entries`. -/
structure SearchResult where
  Entries : List Entry
  deriving DecidableEq

/-- Go `ldap.SearchRequest`. -/
structure SearchRequest where
  BaseDN : String
  Scope : Nat
  DerefAliases : Nat
  SizeLimit : Nat
  TimeLimit : Nat
  TypesOnly : Bool
  Filter : String
  Attributes : List String
  Controls : List String
  deriving DecidableEq

/-- Go `ldap.ScopeBaseObject`. -/
def ScopeBaseObject : Nat := 0

/-- Go `ldap.ScopeSingleLevel`. -/
def ScopeSingleLevel : Nat := 1

/-- Go `ldap.ScopeWholeSubtree`. -/
def ScopeWholeSubtree : Nat := 2

/-- Go `ldap.NeverDerefAliases`. -/
def NeverDerefAliases : Nat := 0

/-- Go `ldap.NewSearchRequest`. -/
def NewSearchRequest (BaseDN : String) (Scope DerefAliases SizeLimit TimeLimit : Nat)
    (TypesOnly : Bool) (Filter : String) (Attributes : List String)
    (Controls : List String) : SearchRequest :=
  ⟨BaseDN, Scope, DerefAliases, SizeLimit, TimeLimit, TypesOnly, Filter, Attributes, Controls⟩

end ldap

/-! ## The collaborators and the state -/

/-- One interaction of the package with the outside: a call on the directory
client or a reading of the clock. -/
inductive Event where
  | Dial (network addr : String)
  | Bind (username password : String)
  | Search (req : ldap.SearchRequest)
  | Close
  | Now
  deriving DecidableEq

/-- The connection `l`, as the history of the interaction so far (oldest event
first). -/
abbrev Conn := List Event

/-- The collaborators of the package.  `Dial` and `Bind` answer `none` for
success; every answer of the directory may depend on the history, so that the
same request can be answered differently at different times.  `Now` is the
monotonic clock reading of `time.Now`, in nanoseconds. -/
structure Env where
  Dial : Conn → String → String → Option GoError
  Bind : Conn → String → String → Option GoError
  Search : Conn → ldap.SearchRequest → Except GoError ldap.SearchResult
  ParseFloat : String → Nat → Except GoError Float64
  Now : Conn → Nat

/-- Go `prometheus.GaugeVec`: the value of each series that exists, by label
values. -/
abbrev GaugeVec := List String → Option Float64

/-- Go `g.WithLabelValues(lvs...).Set(v)`: creates the series when absent. -/
def GaugeVec.Set (g : GaugeVec) (lvs : List String) (v : Float64) : GaugeVec :=
  fun k => if k = lvs then some v else g k

/-- Go `prometheus.CounterVec`.  The value of a series is the number of its
increments: the number that holds it in the client library is exact for every
count a process can reach. -/
abbrev CounterVec := List String → Option Nat

/-- Go `c.WithLabelValues(lvs...).Inc()`: creates the series, at zero, when
absent. -/
def CounterVec.Inc (c : CounterVec) (lvs : List String) : CounterVec :=
  fun k => if k = lvs then some ((c k).getD 0 + 1) else c k

/-- Severity of a log line. -/
inductive Level where
  | debug
  | info
  | warn
  | error
  deriving DecidableEq

/-- An argument of a logger call. -/
inductive LogArg where
  | str (s : String)
  | num (f : Float64)
  | err (e : GoErr)
  deriving DecidableEq

/-- One call of the logger: level, format (or first argument) and the other
arguments. -/
structure LogEntry where
  level : Level
  format : String
  args : List LogArg
  deriving DecidableEq

/-- The gauge vectors among the package-level variables. -/
inductive Gauge where
  | usersGauge
  | groupsGauge
  | hostsGauge
  | hostGroupsGauge
  | hbacRulesGauge
  | sudoRulesGauge
  | dnsZonesGauge
  | ldapConflictsGauge
  | replicationStatusGauge
  | scrapeDurationGauge
  deriving DecidableEq

/-- The package-level variables written by a scrape (the gauge vectors and
`scrapeCounter`), and the logger output. -/
structure State where
  gauges : Gauge → GaugeVec
  scrapeCounter : CounterVec
  log : List LogEntry

/-- Go `g.WithLabelValues(lvs...).Set(v)` on the package variable `g`. -/
def State.Set (s : State) (g : Gauge) (lvs : List String) (v : Float64) : State :=
  { s with gauges := fun g1 => if g1 = g then (s.gauges g1).Set lvs v else s.gauges g1 }

/-- Go `scrapeCounter.WithLabelValues(lvs...).Inc()`. -/
def State.Inc (s : State) (lvs : List String) : State :=
  { s with scrapeCounter := s.scrapeCounter.Inc lvs }

/-- A call of the logger. -/
def State.Log (s : State) (level : Level) (format : String) (args : List LogArg) : State :=
  { s with log := s.log ++ [⟨level, format, args⟩] }

/-- Go `log.Debug(msg)`. -/
def State.Debug (s : State) (msg : String) : State :=
  s.Log .debug msg []

/-- Go `(l *ldap.Conn).Search(req)`: the answer of the directory after the
history `l`, and the history extended by this call. -/
def Conn.Search (env : Env) (l : Conn) (req : ldap.SearchRequest) :
    Except GoError ldap.SearchResult × Conn :=
  (env.Search l req, l ++ [Event.Search req])

/-! ## Package `exporter` -/

namespace exporter

/-- The package variable `ldap_escaper`. -/
def ldap_escaper : strings.Replacer :=
  strings.NewReplacer [("=", "\\="), (",", "\\,")]

/-- The first statement of `scrapeAll`: the base suffix of a domain. -/
def suffixOf (ipaDomain : String) : String :=
  "dc=" ++ strings.Replace ipaDomain "." ",dc=" (-1)

/-- Go `ldapSubordinatesQuery(l, baseDN, searchFilter)`. -/
def ldapSubordinatesQuery (env : Env) (l : Conn) (baseDN searchFilter : String) :
    (Float64 × Option GoError) × Conn :=
  let req := ldap.NewSearchRequest baseDN ldap.ScopeBaseObject ldap.NeverDerefAliases 0 0 false
    searchFilter ["numSubordinates"] []
  let r := Conn.Search env l req
  match r.1 with
  | .error err => ((Float64.ofInt (-1), some err), r.2)
  | .ok sr =>
    match sr.Entries with
    | [] =>
      ((Float64.ofInt (-1),
        some ⟨"No entries contain numSubordinates for " ++ baseDN ++ " (" ++ searchFilter ++ ")"⟩),
        r.2)
    | e0 :: _ =>
      let val := e0.GetAttributeValue "numSubordinates"
      match env.ParseFloat val 64 with
      | .error err => ((Float64.ofInt (-1), some err), r.2)
      | .ok num => ((num, none), r.2)

/-- Go `ldapCountQuery(l, baseDN, searchFilter, attr, scope)`. -/
def ldapCountQuery (env : Env) (l : Conn) (baseDN searchFilter attr : String) (scope : Nat) :
    (Float64 × Option GoError) × Conn :=
  let req := ldap.NewSearchRequest baseDN scope ldap.NeverDerefAliases 0 0 false
    searchFilter [attr] []
  let r := Conn.Search env l req
  match r.1 with
  | .error err => ((Float64.ofInt (-1), some err), r.2)
  | .ok sr => ((Float64.ofInt sr.Entries.length, none), r.2)

/-- The body of the loop of `ldapReplicationQuery`, for one entry. -/
def replicationEntry (s : State) (entry : ldap.Entry) : State :=
  let host := entry.GetAttributeValue "nsDS5ReplicaHost"
  let status := entry.GetAttributeValue "nsds5replicaLastUpdateStatus"
  if strings.Contains status "Incremental update succeeded" then
    s.Set .replicationStatusGauge [host] (Float64.ofInt 1)
  else if strings.Contains status "Problem connecting to replica" then
    s.Set .replicationStatusGauge [host] (Float64.ofInt 0)
  else if strings.Contains status "Can't acquire busy replica" then
    -- We assume all is ok, so use 1
    s.Set .replicationStatusGauge [host] (Float64.ofInt 1)
  else
    (s.Log .warn "Unknown replication status host: %s, status: %s" [.str host, .str status]).Set
      .replicationStatusGauge [host] (Float64.ofInt 0)

/-- Go `ldapReplicationQuery(l, suffix)`. -/
def ldapReplicationQuery (env : Env) (l : Conn) (suffix : String) (s : State) :
    Option GoError × Conn × State :=
  let escaped_suffix := ldap_escaper.Replace suffix
  let base_dn := "cn=replica,cn=" ++ escaped_suffix ++ ",cn=mapping tree,cn=config"
  let req := ldap.NewSearchRequest base_dn ldap.ScopeSingleLevel ldap.NeverDerefAliases 0 0 false
    "(objectClass=nsds5replicationagreement)" ["nsDS5ReplicaHost", "nsds5replicaLastUpdateStatus"] []
  let r := Conn.Search env l req
  match r.1 with
  | .error err => (some err, r.2, s)
  | .ok sr => (none, r.2, sr.Entries.foldl replicationEntry s)

/-- The statement `if err != nil { errs = multierror.Append(errs, err) }`. -/
def collect (errs : Option GoErr) (err : Option GoError) : Option GoErr :=
  match err with
  | some e => some (multierror.Append errs e)
  | none => errs

/-- Go `scrapeAll(ldapAddr, ldapUser, ldapPass, ipaDomain)`, started after the
history `w` in the state `s`.  The deferred `l.Close()` is the last event of
every path on which the dial succeeded. -/
def scrapeAll (env : Env) (w : Conn) (s : State)
    (ldapAddr ldapUser ldapPass ipaDomain : String) : Option GoErr × Conn × State :=
  let suffix := suffixOf ipaDomain
  let l := w ++ [Event.Dial "tcp" ldapAddr]
  match env.Dial w "tcp" ldapAddr with
  | some err => (some (.plain err), l, s)
  | none =>
    match env.Bind l ldapUser ldapPass with
    | some err => (some (.plain err), l ++ [Event.Bind ldapUser ldapPass, Event.Close], s)
    | none =>
      let l := l ++ [Event.Bind ldapUser ldapPass]
      let errs : Option GoErr := none
      -- Search for standard accounts
      let s := s.Debug "getting active accounts"
      let r := ldapSubordinatesQuery env l ("cn=users,cn=accounts," ++ suffix) "(objectClass=*)"
      let errs := collect errs r.1.2
      let s := s.Set .usersGauge ["active"] r.1.1
      -- Search for staged accounts
      let s := s.Debug "getting staged accounts"
      let r := ldapSubordinatesQuery env r.2
        ("cn=staged users,cn=accounts,cn=provisioning," ++ suffix) "(objectClass=*)"
      let errs := collect errs r.1.2
      let s := s.Set .usersGauge ["staged"] r.1.1
      -- Search for deleted accounts
      let s := s.Debug "getting preserved accounts"
      let r := ldapSubordinatesQuery env r.2
        ("cn=deleted users,cn=accounts,cn=provisioning," ++ suffix) "(objectClass=*)"
      let errs := collect errs r.1.2
      let s := s.Set .usersGauge ["preserved"] r.1.1
      -- Search for groups
      let s := s.Debug "getting groups"
      let r := ldapSubordinatesQuery env r.2 ("cn=groups,cn=accounts," ++ suffix) "(objectClass=*)"
      let errs := collect errs r.1.2
      let s := s.Set .groupsGauge [] r.1.1
      -- Search for hosts
      let s := s.Debug "getting hosts"
      let r := ldapSubordinatesQuery env r.2 ("cn=computers,cn=accounts," ++ suffix) "(objectClass=*)"
      let errs := collect errs r.1.2
      let s := s.Set .hostsGauge [] r.1.1
      -- Search for hostgroups
      let s := s.Debug "getting hostgroups"
      let r := ldapSubordinatesQuery env r.2 ("cn=hostgroups,cn=accounts," ++ suffix) "(objectClass=*)"
      let errs := collect errs r.1.2
      let s := s.Set .hostGroupsGauge [] r.1.1
      -- Search for sudo rules
      let s := s.Debug "getting sudo rules"
      let r := ldapSubordinatesQuery env r.2 ("cn=sudorules,cn=sudo," ++ suffix) "(objectClass=*)"
      let errs := collect errs r.1.2
      let s := s.Set .sudoRulesGauge [] r.1.1
      -- Search for hbac rules
      let s := s.Debug "getting hbac rules"
      let r := ldapCountQuery env r.2 ("cn=hbac," ++ suffix) "(objectClass=ipahbacrule)"
        "ipaUniqueID" ldap.ScopeSingleLevel
      let errs := collect errs r.1.2
      let s := s.Set .hbacRulesGauge [] r.1.1
      -- Search for dns zones
      let s := s.Debug "getting dns zones"
      let r := ldapCountQuery env r.2 ("cn=dns," ++ suffix)
        "(|(objectClass=idnszone)(objectClass=idnsforwardzone))" "idnsName" ldap.ScopeSingleLevel
      let errs := collect errs r.1.2
      let s := s.Set .dnsZonesGauge [] r.1.1
      -- Search for ldap conflicts
      let s := s.Debug "getting ldap conflicts"
      let r := ldapCountQuery env r.2 suffix "(nsds5ReplConflict=*)" "nsds5ReplConflict"
        ldap.ScopeWholeSubtree
      let errs := collect errs r.1.2
      let s := s.Set .ldapConflictsGauge [] r.1.1
      -- Process ldap replication agreements
      let s := s.Debug "getting replication agreements"
      let q := ldapReplicationQuery env r.2 suffix s
      let errs := collect errs q.1
      (errs, q.2.1 ++ [Event.Close], q.2.2)

/-- Go `time.Duration.Seconds` of a duration in nanoseconds:
`float64(d / Second) + float64(d % Second) / 1e9`. -/
def Seconds (d : Int) : Float64 :=
  .finite (((d.tdiv 1000000000 : Int) : ℚ) + ((d.tmod 1000000000 : Int) : ℚ) / 1000000000)

/-- Go `ScrapeMetrics(ldapAddr, ldapUser, ldapPass, ipaDomain)`, started after
the history `w` in the state `s`: returns the history and the state it leaves. -/
def ScrapeMetrics (env : Env) (w : Conn) (s : State)
    (ldapAddr ldapUser ldapPass ipaDomain : String) : Conn × State :=
  let start := env.Now w
  let r := scrapeAll env (w ++ [Event.Now]) s ldapAddr ldapUser ldapPass ipaDomain
  let s : State :=
    match r.1 with
    | some err => (r.2.2.Inc ["fail"]).Log .error "Scrape failed, error is:" [.err err]
    | none => r.2.2.Inc ["ok"]
  let elapsed := Seconds ((env.Now r.2.1 : Int) - (start : Int))
  let s := s.Set .scrapeDurationGauge [] elapsed
  let s := s.Log .info "Scrape completed in %f seconds" [.num elapsed]
  (r.2.1 ++ [Event.Now], s)

end exporter

/-! ## Definitions used to state the properties -/

namespace exporter

/-- The escaping of a suffix in words: one backslash is inserted immediately
before every `=` and every `,`; every other character is left unchanged and in
order. -/
def insertBackslashes : List Char → List Char
  | [] => []
  | c :: cs =>
    if c = '=' ∨ c = ',' then '\\' :: c :: insertBackslashes cs
    else c :: insertBackslashes cs

/-- The inverse reading: every backslash that stands immediately before an `=` or
a `,` is removed. -/
def removeBackslashes : List Char → List Char
  | [] => []
  | [c] => [c]
  | c :: d :: cs =>
    if c = '\\' ∧ (d = '=' ∨ d = ',') then d :: removeBackslashes cs
    else c :: removeBackslashes (d :: cs)

/-- The request that `ldapReplicationQuery` sends for a suffix. -/
def replicationRequest (suffix : String) : ldap.SearchRequest :=
  ldap.NewSearchRequest
    ("cn=replica,cn=" ++ String.mk (insertBackslashes suffix.data) ++ ",cn=mapping tree,cn=config")
    ldap.ScopeSingleLevel ldap.NeverDerefAliases 0 0 false
    "(objectClass=nsds5replicationagreement)" ["nsDS5ReplicaHost", "nsds5replicaLastUpdateStatus"] []

/-- The request that `ldapSubordinatesQuery` sends. -/
def subordinatesRequest (baseDN searchFilter : String) : ldap.SearchRequest :=
  ldap.NewSearchRequest baseDN ldap.ScopeBaseObject ldap.NeverDerefAliases 0 0 false
    searchFilter ["numSubordinates"] []

/-- The request that `ldapCountQuery` sends. -/
def countRequest (baseDN searchFilter attr : String) (scope : Nat) : ldap.SearchRequest :=
  ldap.NewSearchRequest baseDN scope ldap.NeverDerefAliases 0 0 false searchFilter [attr] []

/-- The error of `ldapSubordinatesQuery` for a search without entries. -/
def noEntriesError (baseDN searchFilter : String) : GoError :=
  ⟨"No entries contain numSubordinates for " ++ baseDN ++ " (" ++ searchFilter ++ ")"⟩

/-- One of the ten count metrics of a cycle: the series it is published on, the
sub-query that computes it and the request that this sub-query sends. -/
structure CountMetric where
  gauge : Gauge
  labels : List String
  run : Env → Conn → (Float64 × Option GoError) × Conn
  request : ldap.SearchRequest

/-- The ten count metrics in the order in which `scrapeAll` computes them: seven
subordinate counts, then three entry counts. -/
def countMetrics (suffix : String) : List CountMetric :=
  [ ⟨.usersGauge, ["active"],
      fun env l => ldapSubordinatesQuery env l ("cn=users,cn=accounts," ++ suffix) "(objectClass=*)",
      subordinatesRequest ("cn=users,cn=accounts," ++ suffix) "(objectClass=*)"⟩,
    ⟨.usersGauge, ["staged"],
      fun env l => ldapSubordinatesQuery env l
        ("cn=staged users,cn=accounts,cn=provisioning," ++ suffix) "(objectClass=*)",
      subordinatesRequest ("cn=staged users,cn=accounts,cn=provisioning," ++ suffix)
        "(objectClass=*)"⟩,
    ⟨.usersGauge, ["preserved"],
      fun env l => ldapSubordinatesQuery env l
        ("cn=deleted users,cn=accounts,cn=provisioning," ++ suffix) "(objectClass=*)",
      subordinatesRequest ("cn=deleted users,cn=accounts,cn=provisioning," ++ suffix)
        "(objectClass=*)"⟩,
    ⟨.groupsGauge, [],
      fun env l => ldapSubordinatesQuery env l ("cn=groups,cn=accounts," ++ suffix) "(objectClass=*)",
      subordinatesRequest ("cn=groups,cn=accounts," ++ suffix) "(objectClass=*)"⟩,
    ⟨.hostsGauge, [],
      fun env l => ldapSubordinatesQuery env l ("cn=computers,cn=accounts," ++ suffix)
        "(objectClass=*)",
      subordinatesRequest ("cn=computers,cn=accounts," ++ suffix) "(objectClass=*)"⟩,
    ⟨.hostGroupsGauge, [],
      fun env l => ldapSubordinatesQuery env l ("cn=hostgroups,cn=accounts," ++ suffix)
        "(objectClass=*)",
      subordinatesRequest ("cn=hostgroups,cn=accounts," ++ suffix) "(objectClass=*)"⟩,
    ⟨.sudoRulesGauge, [],
      fun env l => ldapSubordinatesQuery env l ("cn=sudorules,cn=sudo," ++ suffix) "(objectClass=*)",
      subordinatesRequest ("cn=sudorules,cn=sudo," ++ suffix) "(objectClass=*)"⟩,
    ⟨.hbacRulesGauge, [],
      fun env l => ldapCountQuery env l ("cn=hbac," ++ suffix) "(objectClass=ipahbacrule)"
        "ipaUniqueID" ldap.ScopeSingleLevel,
      countRequest ("cn=hbac," ++ suffix) "(objectClass=ipahbacrule)" "ipaUniqueID"
        ldap.ScopeSingleLevel⟩,
    ⟨.dnsZonesGauge, [],
      fun env l => ldapCountQuery env l ("cn=dns," ++ suffix)
        "(|(objectClass=idnszone)(objectClass=idnsforwardzone))" "idnsName" ldap.ScopeSingleLevel,
      countRequest ("cn=dns," ++ suffix)
        "(|(objectClass=idnszone)(objectClass=idnsforwardzone))" "idnsName"
        ldap.ScopeSingleLevel⟩,
    ⟨.ldapConflictsGauge, [],
      fun env l => ldapCountQuery env l suffix "(nsds5ReplConflict=*)" "nsds5ReplConflict"
        ldap.ScopeWholeSubtree,
      countRequest suffix "(nsds5ReplConflict=*)" "nsds5ReplConflict" ldap.ScopeWholeSubtree⟩ ]

/-- The eleven search requests of a cycle, in order: those of the ten count
metrics, then that of the replication query. -/
def scrapeRequests (suffix : String) : List ldap.SearchRequest :=
  (countMetrics suffix).map (fun m => m.request) ++ [replicationRequest suffix]

/-- The connection at the moment the sub-query number `k` (from 0) starts, when
the sub-queries start on the connection `l0`: the earlier requests have been
sent. -/
def connBefore (l0 : Conn) (suffix : String) (k : Nat) : Conn :=
  l0 ++ ((scrapeRequests suffix).take k).map Event.Search

/-- The error (or `none`) of each of the eleven sub-queries of a cycle that
starts its sub-queries on the connection `l0` in the state `s`, each one run at
its own moment. -/
def subQueryErrors (env : Env) (l0 : Conn) (s : State) (suffix : String) :
    List (Option GoError) :=
  (countMetrics suffix).enum.map (fun km => (km.2.run env (connBefore l0 suffix km.1)).1.2)
    ++ [(ldapReplicationQuery env (connBefore l0 suffix 10) suffix s).1]

/-- The aggregate of the errors of the sub-queries: `nil` when there is none,
otherwise the aggregate error listing them in order. -/
def aggregate (errors : List (Option GoError)) : Option GoErr :=
  match errors.reduceOption with
  | [] => none
  | e :: es => some (.multi (e :: es))

/-- The classification of a replication status as an ordered list of rules
(phrase, value), read top to bottom. -/
def statusRules : List (String × Int) :=
  [("Incremental update succeeded", 1),
   ("Problem connecting to replica", 0),
   ("Can't acquire busy replica", 1)]

/-- The first rule whose phrase the status contains, if any. -/
def firstMatch (status : String) : Option (String × Int) :=
  statusRules.find? (fun rule => strings.Contains status rule.1)

/-- The value of a status: that of the first matching rule, and 0 when no rule
matches. -/
def statusValue (status : String) : Int :=
  match firstMatch status with
  | some rule => rule.2
  | none => 0

/-- The warning logged for a status that no rule matches. -/
def unknownStatusWarning (host status : String) : LogEntry :=
  ⟨.warn, "Unknown replication status host: %s, status: %s", [.str host, .str status]⟩

/-- The last entry of a search result that names the host, if any. -/
def lastEntryOfHost (entries : List ldap.Entry) (host : String) : Option ldap.Entry :=
  entries.reverse.find? (fun e => e.GetAttributeValue "nsDS5ReplicaHost" = host)

end exporter

/-! ## Concrete inputs -/

namespace exporter

/-- A registry in which no series exists yet, with an empty log. -/
def emptyState : State :=
  ⟨fun _ _ => none, fun _ => none, []⟩

/-- A state left by earlier cycles: 7 active users, host `h1` replicating, and
three successful scrapes counted. -/
def earlierState : State :=
  ⟨fun g lvs =>
      if g = .usersGauge ∧ lvs = ["active"] then some (Float64.ofInt 7)
      else if g = .replicationStatusGauge ∧ lvs = ["h1"] then some (Float64.ofInt 1)
      else none,
    fun k => if k = ["ok"] then some 3 else none,
    []⟩

/-- The answers of an example directory for `example.org`.  The users container
has 42 subordinates, every other container searched at base level is absent, the
search for conflicts is refused, one hbac rule and one dns zone exist, and two
replication agreements exist, the second with an unrecognised status. -/
def exampleSearch (req : ldap.SearchRequest) : Except GoError ldap.SearchResult :=
  if req.BaseDN = "cn=users,cn=accounts,dc=example,dc=org" then
    .ok ⟨[⟨"cn=users,cn=accounts,dc=example,dc=org", [⟨"numSubordinates", ["42"]⟩]⟩]⟩
  else if req.Scope = ldap.ScopeBaseObject then .ok ⟨[]⟩
  else if req.Scope = ldap.ScopeWholeSubtree then .error ⟨"LDAP Result Code 50"⟩
  else if req.Filter = "(objectClass=nsds5replicationagreement)" then
    .ok ⟨[⟨"cn=meToh1", [⟨"nsDS5ReplicaHost", ["h1"]⟩,
            ⟨"nsds5replicaLastUpdateStatus",
              ["Error (0) Replica acquired successfully: Incremental update succeeded"]⟩]⟩,
          ⟨"cn=meToh2", [⟨"nsDS5ReplicaHost", ["h2"]⟩,
            ⟨"nsds5replicaLastUpdateStatus", ["garbage"]⟩]⟩]⟩
  else .ok ⟨[⟨"cn=one", []⟩]⟩

/-- An environment in which dial and bind succeed, the directory answers as
`exampleSearch`, numbers are parsed as Go does and every interaction takes one
second on the clock. -/
def exampleEnv : Env where
  Dial := fun _ _ _ => none
  Bind := fun _ _ _ => none
  Search := fun _ req => exampleSearch req
  ParseFloat := strconv.ParseFloat
  Now := fun l => 1000000000 * l.length

/-- The same environment, except that the bind is refused. -/
def refusedEnv : Env :=
  { exampleEnv with Bind := fun _ _ _ => some ⟨"LDAP Result Code 49 \"Invalid Credentials\""⟩ }

/-- An environment in which every search succeeds and the users container
reports the `numSubordinates` text `-5`. -/
def negativeEnv : Env :=
  { exampleEnv with
    Search := fun _ req =>
      if req.Scope = ldap.ScopeBaseObject then
        .ok ⟨[⟨req.BaseDN, [⟨"numSubordinates", ["-5"]⟩]⟩]⟩
      else .ok ⟨[]⟩ }

end exporter

/-! ## Lemmas on the state -/

theorem State.eq_of_fields {a b : State} (hg : a.gauges = b.gauges)
    (hc : a.scrapeCounter = b.scrapeCounter) (hl : a.log = b.log) : a = b := by
  cases a
  cases b
  simp_all

@[simp]
theorem State.Set_gauges (s : State) (g : Gauge) (lvs : List String) (v : Float64)
    (g1 : Gauge) (k : List String) :
    (s.Set g lvs v).gauges g1 k = if g1 = g ∧ k = lvs then some v else s.gauges g1 k := by
  by_cases hg : g1 = g
  · by_cases hk : k = lvs <;> simp [State.Set, GaugeVec.Set, hg, hk]
  · simp [State.Set, hg]

@[simp]
theorem State.Set_scrapeCounter (s : State) (g : Gauge) (lvs : List String)
    (v : Float64) : (s.Set g lvs v).scrapeCounter = s.scrapeCounter := rfl

@[simp]
theorem State.Set_log (s : State) (g : Gauge) (lvs : List String) (v : Float64) :
    (s.Set g lvs v).log = s.log := rfl

@[simp]
theorem State.Log_gauges (s : State) (lv : Level) (f : String) (args : List LogArg) :
    (s.Log lv f args).gauges = s.gauges := rfl

@[simp]
theorem State.Log_scrapeCounter (s : State) (lv : Level) (f : String)
    (args : List LogArg) : (s.Log lv f args).scrapeCounter = s.scrapeCounter := rfl

@[simp]
theorem State.Log_log (s : State) (lv : Level) (f : String) (args : List LogArg) :
    (s.Log lv f args).log = s.log ++ [⟨lv, f, args⟩] := rfl

@[simp]
theorem State.Debug_gauges (s : State) (msg : String) :
    (s.Debug msg).gauges = s.gauges := rfl

@[simp]
theorem State.Debug_scrapeCounter (s : State) (msg : String) :
    (s.Debug msg).scrapeCounter = s.scrapeCounter := rfl

@[simp]
theorem State.Debug_log (s : State) (msg : String) :
    (s.Debug msg).log = s.log ++ [⟨.debug, msg, []⟩] := rfl

@[simp]
theorem State.Inc_gauges (s : State) (lvs : List String) :
    (s.Inc lvs).gauges = s.gauges := rfl

@[simp]
theorem State.Inc_log (s : State) (lvs : List String) :
    (s.Inc lvs).log = s.log := rfl

@[simp]
theorem State.Inc_scrapeCounter (s : State) (lvs k : List String) :
    (s.Inc lvs).scrapeCounter k
      = if k = lvs then some ((s.scrapeCounter k).getD 0 + 1) else s.scrapeCounter k := rfl

/-! ## Lemmas on the library models -/

namespace strings

theorem splitChars_ne_nil (sep : Char) (cs : List Char) : splitChars sep cs ≠ [] := by
  cases cs with
  | nil => simp [splitChars]
  | cons c cs =>
    unfold splitChars
    split
    · simp
    · split <;> simp

theorem splitChars_length (sep : Char) (cs : List Char) :
    (splitChars sep cs).length = cs.count sep + 1 := by
  induction cs with
  | nil => simp [splitChars]
  | cons c cs ih =>
    unfold splitChars
    by_cases h : c = sep
    · subst h
      simp [ih]
    · have hne : (c == sep) = false := by simpa using h
      rw [if_neg h, List.count_cons, hne]
      cases hs : splitChars sep cs with
      | nil => exact absurd hs (splitChars_ne_nil sep cs)
      | cons p ps =>
        rw [hs] at ih
        simpa using ih

theorem not_mem_of_mem_splitChars (sep : Char) (cs p : List Char)
    (hp : p ∈ splitChars sep cs) : sep ∉ p := by
  induction cs generalizing p with
  | nil =>
    simp [splitChars] at hp
    subst hp
    simp
  | cons c cs ih =>
    unfold splitChars at hp
    by_cases h : c = sep
    · rw [if_pos h] at hp
      rcases List.mem_cons.1 hp with rfl | hp
      · simp
      · exact ih p hp
    · rw [if_neg h] at hp
      cases hs : splitChars sep cs with
      | nil => exact absurd hs (splitChars_ne_nil sep cs)
      | cons q qs =>
        rw [hs] at hp ih
        rcases List.mem_cons.1 hp with rfl | hp
        · intro hmem
          rcases List.mem_cons.1 hmem with heq | hmem
          · exact h heq.symm
          · exact ih q (List.mem_cons_self _ _) hmem
        · exact ih p (List.mem_cons_of_mem _ hp)

theorem Join_cons_char (c : Char) (p : List Char) (rest : List String) (sep : String) :
    Join (String.mk (c :: p) :: rest) sep = String.mk [c] ++ Join (String.mk p :: rest) sep := by
  cases rest with
  | nil => simp only [Join]; apply String.ext; simp
  | cons b r => simp only [Join]; apply String.ext; simp

theorem Join_nil_cons (b : String) (rest : List String) (sep : String) :
    Join ("" :: b :: rest) sep = sep ++ Join (b :: rest) sep := by
  simp only [Join]; apply String.ext; simp

/-- Replacing every occurrence of a one-character `old` joins the pieces between
the occurrences with `new`. -/
theorem replaceChars_eq_Join (sep : Char) (new cs : List Char) :
    String.mk (replaceChars [sep] new none 0 cs)
      = Join ((splitChars sep cs).map String.mk) (String.mk new) := by
  induction cs with
  | nil => simp [replaceChars, splitChars, Join]
  | cons c cs ih =>
    by_cases h : c = sep
    · subst h
      have hr : replaceChars [c] new none 0 (c :: cs) = new ++ replaceChars [c] new none 0 cs := by
        simp [replaceChars, List.isPrefixOf]
      rw [hr]
      unfold splitChars
      rw [if_pos rfl]
      cases hs : splitChars c cs with
      | nil => exact absurd hs (splitChars_ne_nil c cs)
      | cons p ps =>
        rw [hs] at ih
        have : (String.mk (new ++ replaceChars [c] new none 0 cs))
            = String.mk new ++ String.mk (replaceChars [c] new none 0 cs) := by
          apply String.ext; simp
        rw [this, ih]
        simp only [List.map_cons]
        exact (Join_nil_cons _ _ _).symm
    · have hne : (sep == c) = false := by simpa using fun h1 : sep = c => h h1.symm
      have hr : replaceChars [sep] new none 0 (c :: cs) = c :: replaceChars [sep] new none 0 cs := by
        simp [replaceChars, List.isPrefixOf, hne]
      rw [hr]
      unfold splitChars
      rw [if_neg h]
      cases hs : splitChars sep cs with
      | nil => exact absurd hs (splitChars_ne_nil sep cs)
      | cons p ps =>
        rw [hs] at ih
        simp only [List.map_cons] at ih ⊢
        rw [Join_cons_char, ← ih]
        apply String.ext; simp

theorem Join_Split_chars (sep : Char) (cs : List Char) :
    Join ((splitChars sep cs).map String.mk) (String.mk [sep]) = String.mk cs := by
  induction cs with
  | nil => simp [splitChars, Join]
  | cons c cs ih =>
    unfold splitChars
    by_cases h : c = sep
    · subst h
      rw [if_pos rfl]
      cases hs : splitChars c cs with
      | nil => exact absurd hs (splitChars_ne_nil c cs)
      | cons p ps =>
        rw [hs] at ih
        simp only [List.map_cons] at ih ⊢
        rw [show String.mk [] = "" from rfl, Join_nil_cons, ih]
        apply String.ext; simp
    · rw [if_neg h]
      cases hs : splitChars sep cs with
      | nil => exact absurd hs (splitChars_ne_nil sep cs)
      | cons p ps =>
        rw [hs] at ih
        simp only [List.map_cons] at ih ⊢
        rw [Join_cons_char, ih]
        apply String.ext; simp

theorem Join_map_append (pre sep : String) (a : String) (rest : List String) :
    pre ++ Join (a :: rest) (sep ++ pre)
      = Join ((a :: rest).map (fun x => pre ++ x)) sep := by
  induction rest generalizing a with
  | nil => simp [Join]
  | cons b r ih =>
    simp only [Join, List.map_cons] at ih ⊢
    rw [← ih b]
    apply String.ext; simp

end strings

namespace exporter

/-- C1. The base suffix that `scrapeAll` computes from the domain `d` is the
comma-join of `dc=` followed by each label, over the labels of `d` in order, where
the labels are the pieces of `d` between its dots (joined by dots they give `d`
back, and none contains a dot).  So the suffix has as many `dc=` components as `d`
has labels, one more than `d` has dots; it is a function of `d` alone; and
`example.org` gives `dc=example,dc=org`. -/
theorem suffixOf_eq_join_dc_labels (d : String) :
    suffixOf d = strings.Join ((strings.Split d '.').map (fun label => "dc=" ++ label)) ","
    ∧ ((strings.Split d '.').map (fun label => "dc=" ++ label)).length
        = (strings.Split d '.').length
    ∧ (strings.Split d '.').length = d.data.count '.' + 1
    ∧ strings.Join (strings.Split d '.') "." = d
    ∧ (∀ label ∈ strings.Split d '.', '.' ∉ label.data)
    ∧ suffixOf "example.org" = "dc=example,dc=org" := by
  refine ⟨?_, by simp, ?_, ?_, ?_, by decide⟩
  · have h1 : strings.Replace d "." ",dc=" (-1)
        = strings.Join (strings.Split d '.') ("," ++ "dc=") := by
      have := strings.replaceChars_eq_Join '.' ",dc=".data d.data
      simpa [strings.Replace, strings.Split] using this
    unfold suffixOf
    rw [h1]
    unfold strings.Split
    cases hs : strings.splitChars '.' d.data with
    | nil => exact absurd hs (strings.splitChars_ne_nil _ _)
    | cons p ps => exact strings.Join_map_append "dc=" "," _ _
  · simp [strings.Split, strings.splitChars_length]
  · exact strings.Join_Split_chars '.' d.data
  · intro label hl
    simp only [strings.Split, List.mem_map] at hl
    obtain ⟨p, hp, rfl⟩ := hl
    exact strings.not_mem_of_mem_splitChars '.' d.data p hp

end exporter

namespace exporter

theorem ldap_escaper_replaceChars (cs : List Char) :
    ldap_escaper.replaceChars 0 cs = insertBackslashes cs := by
  induction cs with
  | nil => simp [strings.Replacer.replaceChars, insertBackslashes]
  | cons c cs ih =>
    by_cases h1 : c = '='
    · subst h1
      simp [strings.Replacer.replaceChars, strings.Replacer.lookup, ldap_escaper,
        strings.NewReplacer, insertBackslashes, List.isPrefixOf, String.length] at ih ⊢
      exact ih
    · by_cases h2 : c = ','
      · subst h2
        simp [strings.Replacer.replaceChars, strings.Replacer.lookup, ldap_escaper,
          strings.NewReplacer, insertBackslashes, List.isPrefixOf, String.length] at ih ⊢
        exact ih
      · have e1 : ('=' == c) = false := by simpa using fun h : '=' = c => h1 h.symm
        have e2 : (',' == c) = false := by simpa using fun h : ',' = c => h2 h.symm
        simp [strings.Replacer.replaceChars, strings.Replacer.lookup, ldap_escaper,
          strings.NewReplacer, insertBackslashes, List.isPrefixOf, h1, h2, e1, e2] at ih ⊢
        exact ih

theorem ldap_escaper_Replace (s : String) :
    ldap_escaper.Replace s = String.mk (insertBackslashes s.data) := by
  simp [strings.Replacer.Replace, ldap_escaper_replaceChars]

theorem insertBackslashes_head (cs : List Char) (x : Char) (xs : List Char)
    (h : insertBackslashes cs = x :: xs) : ¬ (x = '=' ∨ x = ',') := by
  cases cs with
  | nil => simp [insertBackslashes] at h
  | cons c cs =>
    unfold insertBackslashes at h
    split at h
    · simp at h
      rw [← h.1]
      decide
    · simp at h
      rw [← h.1]
      assumption

theorem removeBackslashes_insertBackslashes (cs : List Char) :
    removeBackslashes (insertBackslashes cs) = cs := by
  induction cs with
  | nil => simp [insertBackslashes, removeBackslashes]
  | cons c cs ih =>
    unfold insertBackslashes
    split
    · rename_i h
      simp [removeBackslashes, h, ih]
    · rename_i h
      cases hi : insertBackslashes cs with
      | nil =>
        rw [hi] at ih
        simp [removeBackslashes] at ih ⊢
        exact ih
      | cons x xs =>
        have hx := insertBackslashes_head cs x xs hi
        rw [hi] at ih
        unfold removeBackslashes
        rw [if_neg (fun hh => hx hh.2), ih]

theorem insertBackslashes_preceded (cs : List Char) (i : Nat) (c : Char)
    (hi : (insertBackslashes cs)[i]? = some c) (hc : c = '=' ∨ c = ',') :
    ∃ j, i = j + 1 ∧ (insertBackslashes cs)[j]? = some '\\' := by
  induction cs generalizing i with
  | nil => simp [insertBackslashes] at hi
  | cons a cs ih =>
    unfold insertBackslashes at hi ⊢
    split at hi
    · rename_i ha
      rw [if_pos ha]
      match i, hi with
      | 0, hi =>
        simp at hi
        subst hi
        exact absurd hc (by decide)
      | 1, _ => exact ⟨0, rfl, by simp⟩
      | k + 2, hi =>
        simp at hi
        obtain ⟨j, hj, hj2⟩ := ih k hi
        exact ⟨j + 2, by omega, by simpa using hj2⟩
    · rename_i ha
      rw [if_neg ha]
      match i, hi with
      | 0, hi =>
        simp at hi
        subst hi
        exact absurd hc ha
      | k + 1, hi =>
        simp at hi
        obtain ⟨j, hj, hj2⟩ := ih k hi
        exact ⟨j + 1, by omega, by simpa using hj2⟩

/-- C10. For every suffix, `ldapReplicationQuery` sends exactly one search, whose
base DN is `cn=replica,cn=` followed by the escaped suffix and by
`,cn=mapping tree,cn=config`; the escaped suffix (what `ldap_escaper` returns) is
the suffix with one backslash inserted immediately before every `=` and every
`,`, so each `=` and `,` of it is preceded by a backslash and removing those
backslashes gives the suffix back; for `example.org` the base DN is
`cn=replica,cn=dc\=example\,dc\=org,cn=mapping tree,cn=config`. -/
theorem ldapReplicationQuery_base_dn (env : Env) (l : Conn) (suffix : String) (s : State) :
    (ldapReplicationQuery env l suffix s).2.1 = l ++ [Event.Search (replicationRequest suffix)]
    ∧ (replicationRequest suffix).BaseDN
        = "cn=replica,cn=" ++ ldap_escaper.Replace suffix ++ ",cn=mapping tree,cn=config"
    ∧ ldap_escaper.Replace suffix = String.mk (insertBackslashes suffix.data)
    ∧ (∀ i c, (ldap_escaper.Replace suffix).data[i]? = some c → (c = '=' ∨ c = ',') →
        ∃ j, i = j + 1 ∧ (ldap_escaper.Replace suffix).data[j]? = some '\\')
    ∧ removeBackslashes (ldap_escaper.Replace suffix).data = suffix.data
    ∧ (replicationRequest (suffixOf "example.org")).BaseDN
        = "cn=replica,cn=dc\\=example\\,dc\\=org,cn=mapping tree,cn=config" := by
  refine ⟨?_, ?_, ldap_escaper_Replace suffix, ?_, ?_, by decide⟩
  · unfold ldapReplicationQuery
    simp only [ldap_escaper_Replace, Conn.Search]
    split <;> rfl
  · simp [replicationRequest, ldap.NewSearchRequest, ldap_escaper_Replace]
  · intro i c hi hc
    rw [ldap_escaper_Replace] at hi ⊢
    exact insertBackslashes_preceded suffix.data i c hi hc
  · rw [ldap_escaper_Replace]
    exact removeBackslashes_insertBackslashes suffix.data

end exporter

namespace strings

theorem isPrefixOf_eq_true_iff (p l : List Char) : p.isPrefixOf l = true ↔ p <+: l := by
  simp

theorem containsChars_iff (sub cs : List Char) :
    containsChars sub cs = true ↔ sub <:+: cs := by
  induction cs with
  | nil =>
    cases sub <;> simp [containsChars]
  | cons c cs ih =>
    simp only [containsChars, Bool.or_eq_true, ih, List.isPrefixOf_iff_prefix]
    constructor
    · rintro (h | h)
      · exact h.isInfix
      · exact h.trans (List.suffix_cons c cs).isInfix
    · intro h
      rcases List.infix_cons_iff.1 h with h | h
      · exact Or.inl h
      · exact Or.inr h

/-- `Contains s substr` holds exactly when the characters of `substr` occur
contiguously in `s`. -/
theorem Contains_iff (s sub : String) : Contains s sub = true ↔ sub.data <:+: s.data := by
  simp [Contains, containsChars_iff]

end strings

namespace exporter

theorem statusValue_eq (status : String) :
    statusValue status =
      if strings.Contains status "Incremental update succeeded" then 1
      else if strings.Contains status "Problem connecting to replica" then 0
      else if strings.Contains status "Can't acquire busy replica" then 1
      else 0 := by
  unfold statusValue firstMatch statusRules
  by_cases h1 : strings.Contains status "Incremental update succeeded" = true
  · simp [List.find?, h1]
  · by_cases h2 : strings.Contains status "Problem connecting to replica" = true
    · simp [List.find?, h1, h2]
    · by_cases h3 : strings.Contains status "Can't acquire busy replica" = true
      · simp [List.find?, h1, h2, h3]
      · simp [List.find?, h1, h2, h3]

theorem firstMatch_eq_none (status : String) :
    firstMatch status = none ↔
      (strings.Contains status "Incremental update succeeded" = false
        ∧ strings.Contains status "Problem connecting to replica" = false
        ∧ strings.Contains status "Can't acquire busy replica" = false) := by
  simp [firstMatch, statusRules]

theorem replicationEntry_eq (s : State) (entry : ldap.Entry) :
    replicationEntry s entry =
      { gauges := fun g lvs =>
          if g = .replicationStatusGauge ∧ lvs = [entry.GetAttributeValue "nsDS5ReplicaHost"] then
            some (Float64.ofInt
              (statusValue (entry.GetAttributeValue "nsds5replicaLastUpdateStatus")))
          else s.gauges g lvs
        scrapeCounter := s.scrapeCounter
        log :=
          if firstMatch (entry.GetAttributeValue "nsds5replicaLastUpdateStatus") = none then
            s.log ++ [unknownStatusWarning (entry.GetAttributeValue "nsDS5ReplicaHost")
              (entry.GetAttributeValue "nsds5replicaLastUpdateStatus")]
          else s.log } := by
  cases h1 : strings.Contains (entry.GetAttributeValue "nsds5replicaLastUpdateStatus")
      "Incremental update succeeded" <;>
  cases h2 : strings.Contains (entry.GetAttributeValue "nsds5replicaLastUpdateStatus")
      "Problem connecting to replica" <;>
  cases h3 : strings.Contains (entry.GetAttributeValue "nsds5replicaLastUpdateStatus")
      "Can't acquire busy replica" <;>
  (apply State.eq_of_fields
   · funext g lvs
     simp [replicationEntry, statusValue_eq, h1, h2, h3]
   · simp [replicationEntry, h1, h2, h3]
   · simp [replicationEntry, firstMatch_eq_none, h1, h2, h3, unknownStatusWarning])

theorem foldl_replicationEntry_gauge (entries : List ldap.Entry) (s : State) (host : String) :
    (entries.foldl replicationEntry s).gauges .replicationStatusGauge [host] =
      match lastEntryOfHost entries host with
      | some e =>
        some (Float64.ofInt (statusValue (e.GetAttributeValue "nsds5replicaLastUpdateStatus")))
      | none => s.gauges .replicationStatusGauge [host] := by
  induction entries generalizing s with
  | nil => simp [lastEntryOfHost]
  | cons e es ih =>
    rw [List.foldl_cons, ih]
    unfold lastEntryOfHost
    rw [List.reverse_cons, List.find?_append]
    cases hf : es.reverse.find? (fun e => e.GetAttributeValue "nsDS5ReplicaHost" = host) with
    | some e1 => simp
    | none =>
      rw [replicationEntry_eq]
      by_cases hh : e.GetAttributeValue "nsDS5ReplicaHost" = host
      · simp [List.find?, hh]
      · have hh2 : ¬ host = e.GetAttributeValue "nsDS5ReplicaHost" := fun h => hh h.symm
        simp [List.find?, hh, hh2]

theorem foldl_replicationEntry_frame (entries : List ldap.Entry) (s : State) :
    (∀ g lvs, g ≠ .replicationStatusGauge →
      (entries.foldl replicationEntry s).gauges g lvs = s.gauges g lvs)
    ∧ (entries.foldl replicationEntry s).scrapeCounter = s.scrapeCounter := by
  induction entries generalizing s with
  | nil => simp
  | cons e es ih =>
    rw [List.foldl_cons]
    refine ⟨fun g lvs hg => ?_, ?_⟩
    · rw [(ih _).1 g lvs hg, replicationEntry_eq]
      simp [hg]
    · rw [(ih _).2, replicationEntry_eq]

end exporter

namespace exporter

theorem ldapReplicationQuery_state (env : Env) (l : Conn) (suffix : String) (s : State) :
    (ldapReplicationQuery env l suffix s).2.2 =
      match env.Search l (replicationRequest suffix) with
      | .ok sr => sr.Entries.foldl replicationEntry s
      | .error _ => s := by
  unfold ldapReplicationQuery
  simp only [Conn.Search, ldap_escaper_Replace]
  change (match env.Search l (replicationRequest suffix) with
    | .error err => (some err, l ++ [Event.Search (replicationRequest suffix)], s)
    | .ok sr => (none, l ++ [Event.Search (replicationRequest suffix)],
        sr.Entries.foldl replicationEntry s)).2.2 = _
  cases env.Search l (replicationRequest suffix) <;> rfl

/-- C2. `ldapReplicationQuery` classifies each returned agreement by its status
text through the ordered rules of `statusRules`, first match wins: 1 if the status
contains `Incremental update succeeded`, otherwise 0 if it contains
`Problem connecting to replica`, otherwise 1 if it contains
`Can't acquire busy replica`, otherwise 0 with a warning.  The value is a function
of the status alone and is 1 or 0; handling one entry sets exactly the replication
series labelled by the entry's host to that value and leaves every other series,
the counter and (unless no rule matches) the log as they were; after the whole
loop the series of a host holds the value of the last returned entry naming that
host.  The four table cases hold. -/
theorem ldapReplicationQuery_classification (env : Env) (l : Conn) (suffix : String)
    (s : State) :
    ((ldapReplicationQuery env l suffix s).2.2 =
      match env.Search l (replicationRequest suffix) with
      | .ok sr => sr.Entries.foldl replicationEntry s
      | .error _ => s)
    ∧ (∀ (t : State) (entry : ldap.Entry),
        replicationEntry t entry =
          { gauges := fun g lvs =>
              if g = .replicationStatusGauge
                  ∧ lvs = [entry.GetAttributeValue "nsDS5ReplicaHost"] then
                some (Float64.ofInt
                  (statusValue (entry.GetAttributeValue "nsds5replicaLastUpdateStatus")))
              else t.gauges g lvs
            scrapeCounter := t.scrapeCounter
            log :=
              if firstMatch (entry.GetAttributeValue "nsds5replicaLastUpdateStatus") = none then
                t.log ++ [unknownStatusWarning (entry.GetAttributeValue "nsDS5ReplicaHost")
                  (entry.GetAttributeValue "nsds5replicaLastUpdateStatus")]
              else t.log })
    ∧ (∀ sr, env.Search l (replicationRequest suffix) = .ok sr → ∀ host,
        (ldapReplicationQuery env l suffix s).2.2.gauges .replicationStatusGauge [host] =
          match lastEntryOfHost sr.Entries host with
          | some e =>
            some (Float64.ofInt
              (statusValue (e.GetAttributeValue "nsds5replicaLastUpdateStatus")))
          | none => s.gauges .replicationStatusGauge [host])
    ∧ (∀ status : String,
        statusValue status =
          if "Incremental update succeeded".data <:+: status.data then 1
          else if "Problem connecting to replica".data <:+: status.data then 0
          else if "Can't acquire busy replica".data <:+: status.data then 1
          else 0)
    ∧ (∀ status : String,
        firstMatch status = none ↔
          ¬ "Incremental update succeeded".data <:+: status.data
          ∧ ¬ "Problem connecting to replica".data <:+: status.data
          ∧ ¬ "Can't acquire busy replica".data <:+: status.data)
    ∧ (∀ status : String, statusValue status = 1 ∨ statusValue status = 0)
    ∧ statusValue "Incremental update succeeded" = 1
    ∧ statusValue "Problem connecting to replica..." = 0
    ∧ statusValue "Can't acquire busy replica" = 1
    ∧ statusValue "garbage" = 0
    ∧ firstMatch "garbage" = none := by
  refine ⟨ldapReplicationQuery_state env l suffix s, replicationEntry_eq, ?_, ?_, ?_, ?_,
    by decide, by decide, by decide, by decide, by decide⟩
  · intro sr hsr host
    rw [ldapReplicationQuery_state, hsr]
    exact foldl_replicationEntry_gauge sr.Entries s host
  · intro status
    rw [statusValue_eq]
    simp only [strings.Contains_iff]
  · intro status
    rw [firstMatch_eq_none]
    have h : ∀ sub : String,
        strings.Contains status sub = false ↔ ¬ sub.data <:+: status.data := by
      intro sub
      rw [← strings.Contains_iff, Bool.not_eq_true]
    exact and_congr (h _) (and_congr (h _) (h _))
  · intro status
    rw [statusValue_eq]
    split
    · exact Or.inl rfl
    · split
      · exact Or.inr rfl
      · split
        · exact Or.inl rfl
        · exact Or.inr rfl

/-- Witness of C2: the two agreements of the example directory; the second has
an unrecognised status and is published as 0. -/
theorem ldapReplicationQuery_classification_witness :
    (ldapReplicationQuery exampleEnv [] "dc=example,dc=org" emptyState).2.2.gauges
        .replicationStatusGauge ["h2"]
      = match lastEntryOfHost
          [⟨"cn=meToh1", [⟨"nsDS5ReplicaHost", ["h1"]⟩,
              ⟨"nsds5replicaLastUpdateStatus",
                ["Error (0) Replica acquired successfully: Incremental update succeeded"]⟩]⟩,
            ⟨"cn=meToh2", [⟨"nsDS5ReplicaHost", ["h2"]⟩,
              ⟨"nsds5replicaLastUpdateStatus", ["garbage"]⟩]⟩] "h2" with
        | some e =>
          some (Float64.ofInt (statusValue (e.GetAttributeValue "nsds5replicaLastUpdateStatus")))
        | none => emptyState.gauges .replicationStatusGauge ["h2"] :=
  (ldapReplicationQuery_classification exampleEnv [] "dc=example,dc=org" emptyState).2.2.1
    ⟨[⟨"cn=meToh1", [⟨"nsDS5ReplicaHost", ["h1"]⟩,
          ⟨"nsds5replicaLastUpdateStatus",
            ["Error (0) Replica acquired successfully: Incremental update succeeded"]⟩]⟩,
        ⟨"cn=meToh2", [⟨"nsDS5ReplicaHost", ["h2"]⟩,
          ⟨"nsds5replicaLastUpdateStatus", ["garbage"]⟩]⟩]⟩
    (by decide) "h2"

end exporter

namespace exporter

theorem ldapSubordinatesQuery_eq (env : Env) (l : Conn) (baseDN searchFilter : String) :
    ldapSubordinatesQuery env l baseDN searchFilter =
      ((match env.Search l (subordinatesRequest baseDN searchFilter) with
        | .error err => (Float64.ofInt (-1), some err)
        | .ok sr =>
          match sr.Entries with
          | [] => (Float64.ofInt (-1), some (noEntriesError baseDN searchFilter))
          | e0 :: _ =>
            match env.ParseFloat (e0.GetAttributeValue "numSubordinates") 64 with
            | .error err => (Float64.ofInt (-1), some err)
            | .ok num => (num, none)),
       l ++ [Event.Search (subordinatesRequest baseDN searchFilter)]) := by
  unfold ldapSubordinatesQuery
  simp only [Conn.Search]
  change (match env.Search l (subordinatesRequest baseDN searchFilter) with
    | .error err => _
    | .ok sr => _) = _
  cases hs : env.Search l (subordinatesRequest baseDN searchFilter) with
  | error err => rfl
  | ok sr =>
    simp only
    cases he : sr.Entries with
    | nil => rfl
    | cons e0 rest =>
      simp only
      cases hp : env.ParseFloat (e0.GetAttributeValue "numSubordinates") 64 <;> rfl

theorem ldapCountQuery_eq (env : Env) (l : Conn) (baseDN searchFilter attr : String)
    (scope : Nat) :
    ldapCountQuery env l baseDN searchFilter attr scope =
      ((match env.Search l (countRequest baseDN searchFilter attr scope) with
        | .error err => (Float64.ofInt (-1), some err)
        | .ok sr => (Float64.ofInt sr.Entries.length, none)),
       l ++ [Event.Search (countRequest baseDN searchFilter attr scope)]) := by
  unfold ldapCountQuery
  simp only [Conn.Search]
  change (match env.Search l (countRequest baseDN searchFilter attr scope) with
    | .error err => _
    | .ok sr => _) = _
  cases hs : env.Search l (countRequest baseDN searchFilter attr scope) <;> rfl

theorem GetAttributeValue_of_absent (e : ldap.Entry) (attr : String)
    (h : ∀ a ∈ e.Attributes, a.Name ≠ attr) : e.GetAttributeValue attr = "" := by
  have hf : e.Attributes.find? (fun a => a.Name = attr) = none := by
    rw [List.find?_eq_none]
    intro a ha
    simpa using h a ha
  simp [ldap.Entry.GetAttributeValue, ldap.Entry.GetAttributeValues, hf]

/-- C4. `ldapSubordinatesQuery` sends one base-object search for `numSubordinates`.
It returns a value with no error exactly when the search succeeds, returns at
least one entry, and the `numSubordinates` text of the first entry parses; the
value is then the parsed number.  In every other case (search error, no entry,
unparsable text, of which an entry without the attribute is the case of the empty
text) it returns the sentinel -1 with a non-nil error. -/
theorem ldapSubordinatesQuery_result (env : Env) (l : Conn) (baseDN searchFilter : String) :
    (ldapSubordinatesQuery env l baseDN searchFilter).2
        = l ++ [Event.Search (subordinatesRequest baseDN searchFilter)]
    ∧ (∀ v, (ldapSubordinatesQuery env l baseDN searchFilter).1 = (v, none) ↔
        ∃ sr e0 rest, env.Search l (subordinatesRequest baseDN searchFilter) = .ok sr
          ∧ sr.Entries = e0 :: rest
          ∧ env.ParseFloat (e0.GetAttributeValue "numSubordinates") 64 = .ok v)
    ∧ ((∃ v, (ldapSubordinatesQuery env l baseDN searchFilter).1 = (v, none))
        ∨ (∃ err, (ldapSubordinatesQuery env l baseDN searchFilter).1
            = (Float64.ofInt (-1), some err)))
    ∧ (∀ err, env.Search l (subordinatesRequest baseDN searchFilter) = .error err →
        (ldapSubordinatesQuery env l baseDN searchFilter).1 = (Float64.ofInt (-1), some err))
    ∧ (∀ sr, env.Search l (subordinatesRequest baseDN searchFilter) = .ok sr →
        sr.Entries = [] →
        (ldapSubordinatesQuery env l baseDN searchFilter).1
          = (Float64.ofInt (-1), some (noEntriesError baseDN searchFilter)))
    ∧ (∀ sr e0 rest err, env.Search l (subordinatesRequest baseDN searchFilter) = .ok sr →
        sr.Entries = e0 :: rest →
        env.ParseFloat (e0.GetAttributeValue "numSubordinates") 64 = .error err →
        (ldapSubordinatesQuery env l baseDN searchFilter).1 = (Float64.ofInt (-1), some err))
    ∧ (∀ sr e0 rest err, env.Search l (subordinatesRequest baseDN searchFilter) = .ok sr →
        sr.Entries = e0 :: rest →
        (∀ a ∈ e0.Attributes, a.Name ≠ "numSubordinates") →
        env.ParseFloat "" 64 = .error err →
        (ldapSubordinatesQuery env l baseDN searchFilter).1 = (Float64.ofInt (-1), some err))
    ∧ strconv.ParseFloat "" 64
        = .error ⟨"strconv.ParseFloat: parsing \"\": invalid syntax"⟩ := by
  rw [ldapSubordinatesQuery_eq]
  refine ⟨rfl, ?_, ?_, ?_, ?_, ?_, ?_, by decide⟩
  · intro v
    constructor
    · intro h
      cases hs : env.Search l (subordinatesRequest baseDN searchFilter) with
      | error err => simp [hs] at h
      | ok sr =>
        cases he : sr.Entries with
        | nil => simp [hs, he] at h
        | cons e0 rest =>
          cases hp : env.ParseFloat (e0.GetAttributeValue "numSubordinates") 64 with
          | error err => simp [hs, he, hp] at h
          | ok num =>
            simp [hs, he, hp] at h
            exact ⟨sr, e0, rest, rfl, he, by rw [hp, h]⟩
    · rintro ⟨sr, e0, rest, hs, he, hp⟩
      simp [hs, he, hp]
  · cases hs : env.Search l (subordinatesRequest baseDN searchFilter) with
    | error err => exact Or.inr ⟨err, by simp⟩
    | ok sr =>
      cases he : sr.Entries with
      | nil => exact Or.inr ⟨noEntriesError baseDN searchFilter, by simp [he]⟩
      | cons e0 rest =>
        cases hp : env.ParseFloat (e0.GetAttributeValue "numSubordinates") 64 with
        | error err => exact Or.inr ⟨err, by simp [he, hp]⟩
        | ok num => exact Or.inl ⟨num, by simp [he, hp]⟩
  · intro err hs
    simp [hs]
  · intro sr hs he
    simp [hs, he]
  · intro sr e0 rest err hs he hp
    simp [hs, he, hp]
  · intro sr e0 rest err hs he ha hp
    simp [hs, he, GetAttributeValue_of_absent e0 _ ha, hp]

/-- C5. `ldapCountQuery` sends one search and, whenever that search returns a
result without error, returns the number of entries of the result with no error,
whatever the entries are: results with equally many entries give the same value,
different numbers of entries give different values, and a result with no entry
gives the count 0 with no error.  A search error gives -1 with that error. -/
theorem ldapCountQuery_result (env : Env) (l : Conn) (baseDN searchFilter attr : String)
    (scope : Nat) :
    (ldapCountQuery env l baseDN searchFilter attr scope).2
        = l ++ [Event.Search (countRequest baseDN searchFilter attr scope)]
    ∧ (∀ sr, env.Search l (countRequest baseDN searchFilter attr scope) = .ok sr →
        (ldapCountQuery env l baseDN searchFilter attr scope).1
          = (Float64.finite (sr.Entries.length : ℚ), none))
    ∧ (∀ sr, env.Search l (countRequest baseDN searchFilter attr scope) = .ok sr →
        sr.Entries = [] →
        (ldapCountQuery env l baseDN searchFilter attr scope).1 = (Float64.finite 0, none))
    ∧ (∀ err, env.Search l (countRequest baseDN searchFilter attr scope) = .error err →
        (ldapCountQuery env l baseDN searchFilter attr scope).1
          = (Float64.finite (-1), some err))
    ∧ (∀ m n : Nat, Float64.finite (m : ℚ) = Float64.finite (n : ℚ) ↔ m = n) := by
  rw [ldapCountQuery_eq]
  refine ⟨rfl, ?_, ?_, ?_, ?_⟩
  · intro sr hs
    simp [hs, Float64.ofInt]
  · intro sr hs he
    simp [hs, he, Float64.ofInt]
  · intro err hs
    simp [hs, Float64.ofInt]
  · intro m n
    simp

/-- Witness of C4: the users container of the example directory reports 42
subordinates, and an absent container fails with the sentinel. -/
theorem ldapSubordinatesQuery_result_witness :
    (ldapSubordinatesQuery exampleEnv [] "cn=users,cn=accounts,dc=example,dc=org"
        "(objectClass=*)").1 = (Float64.finite 42, none)
    ∧ (ldapSubordinatesQuery exampleEnv [] "cn=groups,cn=accounts,dc=example,dc=org"
        "(objectClass=*)").1
        = (Float64.ofInt (-1),
            some (noEntriesError "cn=groups,cn=accounts,dc=example,dc=org" "(objectClass=*)")) :=
  ⟨((ldapSubordinatesQuery_result exampleEnv [] "cn=users,cn=accounts,dc=example,dc=org"
      "(objectClass=*)").2.1 (Float64.finite 42)).2
      ⟨⟨[⟨"cn=users,cn=accounts,dc=example,dc=org", [⟨"numSubordinates", ["42"]⟩]⟩]⟩,
        ⟨"cn=users,cn=accounts,dc=example,dc=org", [⟨"numSubordinates", ["42"]⟩]⟩, [],
        by decide, rfl, by decide⟩,
   (ldapSubordinatesQuery_result exampleEnv [] "cn=groups,cn=accounts,dc=example,dc=org"
      "(objectClass=*)").2.2.2.2.1 ⟨[]⟩ (by decide) rfl⟩

/-- Witness of C5: the example directory returns one hbac rule, whatever its
attributes, and refuses the search for conflicts. -/
theorem ldapCountQuery_result_witness :
    (ldapCountQuery exampleEnv [] "cn=hbac,dc=example,dc=org" "(objectClass=ipahbacrule)"
        "ipaUniqueID" ldap.ScopeSingleLevel).1
        = (Float64.finite ((([⟨"cn=one", []⟩] : List ldap.Entry).length : ℕ) : ℚ), none)
    ∧ (ldapCountQuery exampleEnv [] "dc=example,dc=org" "(nsds5ReplConflict=*)"
        "nsds5ReplConflict" ldap.ScopeWholeSubtree).1
        = (Float64.finite (-1), some ⟨"LDAP Result Code 50"⟩) :=
  ⟨(ldapCountQuery_result exampleEnv [] "cn=hbac,dc=example,dc=org" "(objectClass=ipahbacrule)"
      "ipaUniqueID" ldap.ScopeSingleLevel).2.1 ⟨[⟨"cn=one", []⟩]⟩ (by decide),
   (ldapCountQuery_result exampleEnv [] "dc=example,dc=org" "(nsds5ReplConflict=*)"
      "nsds5ReplConflict" ldap.ScopeWholeSubtree).2.2.2.1 ⟨"LDAP Result Code 50"⟩ (by decide)⟩

end exporter

namespace exporter

theorem ldapSubordinatesQuery_conn (env : Env) (l : Conn) (baseDN searchFilter : String) :
    (ldapSubordinatesQuery env l baseDN searchFilter).2
      = l ++ [Event.Search (subordinatesRequest baseDN searchFilter)] := by
  rw [ldapSubordinatesQuery_eq]

theorem ldapCountQuery_conn (env : Env) (l : Conn) (baseDN searchFilter attr : String)
    (scope : Nat) :
    (ldapCountQuery env l baseDN searchFilter attr scope).2
      = l ++ [Event.Search (countRequest baseDN searchFilter attr scope)] := by
  rw [ldapCountQuery_eq]

theorem ldapReplicationQuery_conn (env : Env) (l : Conn) (suffix : String) (s : State) :
    (ldapReplicationQuery env l suffix s).2.1 = l ++ [Event.Search (replicationRequest suffix)] := by
  unfold ldapReplicationQuery
  simp only [ldap_escaper_Replace, Conn.Search]
  split <;> rfl

theorem ldapReplicationQuery_error (env : Env) (l : Conn) (suffix : String) (s : State) :
    (ldapReplicationQuery env l suffix s).1 =
      match env.Search l (replicationRequest suffix) with
      | .ok _ => none
      | .error err => some err := by
  unfold ldapReplicationQuery
  simp only [Conn.Search, ldap_escaper_Replace]
  change (match env.Search l (replicationRequest suffix) with
    | .error err => (some err, l ++ [Event.Search (replicationRequest suffix)], s)
    | .ok sr => (none, l ++ [Event.Search (replicationRequest suffix)],
        sr.Entries.foldl replicationEntry s)).1 = _
  cases env.Search l (replicationRequest suffix) <;> rfl

theorem collect_aggregate (os : List (Option GoError)) (o : Option GoError) :
    collect (aggregate os) o = aggregate (os ++ [o]) := by
  cases o with
  | none => simp [collect, aggregate, List.reduceOption_append]
  | some e =>
    simp only [collect, aggregate, List.reduceOption_append]
    cases h : os.reduceOption with
    | nil => simp [multierror.Append, List.reduceOption]
    | cons a as => simp [multierror.Append, List.reduceOption]

theorem aggregate_eq_none (os : List (Option GoError)) :
    aggregate os = none ↔ ∀ o ∈ os, o = none := by
  unfold aggregate
  cases h : os.reduceOption with
  | nil =>
    simp only [true_iff]
    intro o ho
    cases o with
    | none => rfl
    | some e =>
      have : e ∈ os.reduceOption := List.reduceOption_mem_iff.2 ho
      rw [h] at this
      cases this
  | cons a as =>
    simp only [false_iff, reduceCtorEq]
    intro hall
    have ha : a ∈ os.reduceOption := by rw [h]; exact List.mem_cons_self _ _
    have := hall _ (List.reduceOption_mem_iff.1 ha)
    cases this

end exporter

namespace exporter

theorem scrapeAll_conn_of_bound (env : Env) (w : Conn) (s : State)
    (ldapAddr ldapUser ldapPass ipaDomain : String)
    (hd : env.Dial w "tcp" ldapAddr = none)
    (hb : env.Bind (w ++ [Event.Dial "tcp" ldapAddr]) ldapUser ldapPass = none) :
    (scrapeAll env w s ldapAddr ldapUser ldapPass ipaDomain).2.1
      = (w ++ [Event.Dial "tcp" ldapAddr, Event.Bind ldapUser ldapPass])
          ++ (scrapeRequests (suffixOf ipaDomain)).map Event.Search ++ [Event.Close] := by
  unfold scrapeAll
  simp only [hd, hb]
  simp only [ldapSubordinatesQuery_conn, ldapCountQuery_conn, ldapReplicationQuery_conn]
  simp [scrapeRequests, countMetrics]

theorem scrapeAll_error_of_bound (env : Env) (w : Conn) (s : State)
    (ldapAddr ldapUser ldapPass ipaDomain : String)
    (hd : env.Dial w "tcp" ldapAddr = none)
    (hb : env.Bind (w ++ [Event.Dial "tcp" ldapAddr]) ldapUser ldapPass = none) :
    (scrapeAll env w s ldapAddr ldapUser ldapPass ipaDomain).1
      = aggregate (subQueryErrors env
          (w ++ [Event.Dial "tcp" ldapAddr, Event.Bind ldapUser ldapPass]) s
          (suffixOf ipaDomain)) := by
  unfold scrapeAll
  simp only [hd, hb]
  simp only [ldapSubordinatesQuery_conn, ldapCountQuery_conn, ldapReplicationQuery_conn]
  have h0 : (none : Option GoErr) = aggregate [] := rfl
  rw [h0]
  simp only [collect_aggregate]
  simp [subQueryErrors, countMetrics, scrapeRequests, connBefore, List.enum, List.enumFrom,
    ldapReplicationQuery_error]

end exporter

namespace exporter

theorem foldl_replicationEntry_congr (entries : List ldap.Entry) (s t : State)
    (h : s.gauges .replicationStatusGauge = t.gauges .replicationStatusGauge) :
    (entries.foldl replicationEntry s).gauges .replicationStatusGauge
      = (entries.foldl replicationEntry t).gauges .replicationStatusGauge := by
  induction entries generalizing s t with
  | nil => simpa using h
  | cons e es ih =>
    rw [List.foldl_cons, List.foldl_cons]
    apply ih
    rw [replicationEntry_eq, replicationEntry_eq]
    funext lvs
    simp [h]

theorem ldapReplicationQuery_gauges_other (env : Env) (l : Conn) (suffix : String) (t : State)
    (g : Gauge) (lvs : List String) (hg : g ≠ .replicationStatusGauge) :
    (ldapReplicationQuery env l suffix t).2.2.gauges g lvs = t.gauges g lvs := by
  rw [ldapReplicationQuery_state]
  cases env.Search l (replicationRequest suffix) with
  | error err => rfl
  | ok sr => exact (foldl_replicationEntry_frame sr.Entries t).1 g lvs hg

theorem ldapReplicationQuery_scrapeCounter (env : Env) (l : Conn) (suffix : String)
    (t : State) :
    (ldapReplicationQuery env l suffix t).2.2.scrapeCounter = t.scrapeCounter := by
  rw [ldapReplicationQuery_state]
  cases env.Search l (replicationRequest suffix) with
  | error err => rfl
  | ok sr => exact (foldl_replicationEntry_frame sr.Entries t).2

theorem ldapReplicationQuery_gauges_congr (env : Env) (l : Conn) (suffix : String)
    (s t : State)
    (h : s.gauges .replicationStatusGauge = t.gauges .replicationStatusGauge) :
    (ldapReplicationQuery env l suffix s).2.2.gauges .replicationStatusGauge
      = (ldapReplicationQuery env l suffix t).2.2.gauges .replicationStatusGauge := by
  rw [ldapReplicationQuery_state, ldapReplicationQuery_state]
  cases env.Search l (replicationRequest suffix) with
  | error err => exact h
  | ok sr => exact foldl_replicationEntry_congr sr.Entries s t h

theorem scrapeAll_count_gauge_of_bound (env : Env) (w : Conn) (s : State)
    (ldapAddr ldapUser ldapPass ipaDomain : String)
    (hd : env.Dial w "tcp" ldapAddr = none)
    (hb : env.Bind (w ++ [Event.Dial "tcp" ldapAddr]) ldapUser ldapPass = none)
    (k : Nat) (m : CountMetric) (hm : (countMetrics (suffixOf ipaDomain))[k]? = some m) :
    (scrapeAll env w s ldapAddr ldapUser ldapPass ipaDomain).2.2.gauges m.gauge m.labels
      = some (m.run env (connBefore
          (w ++ [Event.Dial "tcp" ldapAddr, Event.Bind ldapUser ldapPass])
          (suffixOf ipaDomain) k)).1.1 := by
  unfold scrapeAll
  simp only [hd, hb]
  simp only [ldapSubordinatesQuery_conn, ldapCountQuery_conn, ldapReplicationQuery_conn]
  match k, hm with
  | 0, hm | 1, hm | 2, hm | 3, hm | 4, hm | 5, hm | 6, hm | 7, hm | 8, hm | 9, hm =>
    simp [countMetrics] at hm
    subst hm
    simp [ldapReplicationQuery_gauges_other, connBefore, scrapeRequests, countMetrics]
  | k + 10, hm => simp [countMetrics] at hm

theorem scrapeAll_replication_gauge_of_bound (env : Env) (w : Conn) (s : State)
    (ldapAddr ldapUser ldapPass ipaDomain : String)
    (hd : env.Dial w "tcp" ldapAddr = none)
    (hb : env.Bind (w ++ [Event.Dial "tcp" ldapAddr]) ldapUser ldapPass = none) :
    (scrapeAll env w s ldapAddr ldapUser ldapPass ipaDomain).2.2.gauges .replicationStatusGauge
      = (ldapReplicationQuery env
          (connBefore (w ++ [Event.Dial "tcp" ldapAddr, Event.Bind ldapUser ldapPass])
            (suffixOf ipaDomain) 10)
          (suffixOf ipaDomain) s).2.2.gauges .replicationStatusGauge := by
  unfold scrapeAll
  simp only [hd, hb]
  simp only [ldapSubordinatesQuery_conn, ldapCountQuery_conn, ldapReplicationQuery_conn]
  have hc : connBefore (w ++ [Event.Dial "tcp" ldapAddr, Event.Bind ldapUser ldapPass])
      (suffixOf ipaDomain) 10
      = w ++ [Event.Dial "tcp" ldapAddr] ++ [Event.Bind ldapUser ldapPass]
        ++ ((countMetrics (suffixOf ipaDomain)).map (fun m => Event.Search m.request)) := by
    simp [connBefore, scrapeRequests, countMetrics]
  rw [hc]
  simp only [countMetrics, List.map, List.append_assoc, List.cons_append, List.nil_append]
  apply ldapReplicationQuery_gauges_congr
  funext lvs
  simp

end exporter

namespace exporter

theorem scrapeRequests_length (suffix : String) : (scrapeRequests suffix).length = 11 := by
  simp [scrapeRequests, countMetrics]

theorem subQueryErrors_length (env : Env) (l0 : Conn) (s : State) (suffix : String) :
    (subQueryErrors env l0 s suffix).length = 11 := by
  simp [subQueryErrors, countMetrics]

theorem aggregate_eq_multi (os : List (Option GoError)) (es : List GoError)
    (h : aggregate os = some (.multi es)) : es = os.reduceOption := by
  unfold aggregate at h
  cases hr : os.reduceOption with
  | nil => simp [hr] at h
  | cons a as =>
    simp [hr] at h
    exact h.symm

theorem aggregate_ne_plain (os : List (Option GoError)) (e : GoError) :
    aggregate os ≠ some (.plain e) := by
  unfold aggregate
  cases os.reduceOption <;> simp

/-- C3. Once dial and bind have succeeded, `scrapeAll` sends the eleven searches
of `scrapeRequests` (seven subordinate counts, three entry counts, the replication
query) in that order and then closes, whatever the sub-queries answer; the error
it returns is the aggregate of the errors of all failed sub-queries, one each and
in order, so it returns no error exactly when every sub-query succeeded; and each
of the ten count series holds what its own sub-query returned, and the replication
series are those written by the replication query, whatever the other sub-queries
did. -/
theorem scrapeAll_partial_failure_isolation (env : Env) (w : Conn) (s : State)
    (ldapAddr ldapUser ldapPass ipaDomain : String)
    (hd : env.Dial w "tcp" ldapAddr = none)
    (hb : env.Bind (w ++ [Event.Dial "tcp" ldapAddr]) ldapUser ldapPass = none) :
    (scrapeAll env w s ldapAddr ldapUser ldapPass ipaDomain).2.1
        = (w ++ [Event.Dial "tcp" ldapAddr, Event.Bind ldapUser ldapPass])
            ++ (scrapeRequests (suffixOf ipaDomain)).map Event.Search ++ [Event.Close]
    ∧ (scrapeRequests (suffixOf ipaDomain)).length = 11
    ∧ (subQueryErrors env (w ++ [Event.Dial "tcp" ldapAddr, Event.Bind ldapUser ldapPass]) s
        (suffixOf ipaDomain)).length = 11
    ∧ (scrapeAll env w s ldapAddr ldapUser ldapPass ipaDomain).1
        = aggregate (subQueryErrors env
            (w ++ [Event.Dial "tcp" ldapAddr, Event.Bind ldapUser ldapPass]) s
            (suffixOf ipaDomain))
    ∧ (∀ errs, (scrapeAll env w s ldapAddr ldapUser ldapPass ipaDomain).1 = some errs →
        errs = .multi (subQueryErrors env
            (w ++ [Event.Dial "tcp" ldapAddr, Event.Bind ldapUser ldapPass]) s
            (suffixOf ipaDomain)).reduceOption)
    ∧ ((scrapeAll env w s ldapAddr ldapUser ldapPass ipaDomain).1 = none ↔
        ∀ o ∈ subQueryErrors env
            (w ++ [Event.Dial "tcp" ldapAddr, Event.Bind ldapUser ldapPass]) s
            (suffixOf ipaDomain), o = none)
    ∧ (∀ (k : Nat) (m : CountMetric), (countMetrics (suffixOf ipaDomain))[k]? = some m →
        (scrapeAll env w s ldapAddr ldapUser ldapPass ipaDomain).2.2.gauges m.gauge m.labels
          = some (m.run env (connBefore
              (w ++ [Event.Dial "tcp" ldapAddr, Event.Bind ldapUser ldapPass])
              (suffixOf ipaDomain) k)).1.1)
    ∧ (scrapeAll env w s ldapAddr ldapUser ldapPass ipaDomain).2.2.gauges
          .replicationStatusGauge
        = (ldapReplicationQuery env
            (connBefore (w ++ [Event.Dial "tcp" ldapAddr, Event.Bind ldapUser ldapPass])
              (suffixOf ipaDomain) 10)
            (suffixOf ipaDomain) s).2.2.gauges .replicationStatusGauge := by
  refine ⟨scrapeAll_conn_of_bound env w s _ _ _ _ hd hb, scrapeRequests_length _,
    subQueryErrors_length _ _ _ _, scrapeAll_error_of_bound env w s _ _ _ _ hd hb, ?_, ?_,
    fun k m hm => scrapeAll_count_gauge_of_bound env w s _ _ _ _ hd hb k m hm,
    scrapeAll_replication_gauge_of_bound env w s _ _ _ _ hd hb⟩
  · intro errs h
    rw [scrapeAll_error_of_bound env w s _ _ _ _ hd hb] at h
    cases errs with
    | plain e => exact absurd h (aggregate_ne_plain _ e)
    | multi es => rw [aggregate_eq_multi _ es h]
  · rw [scrapeAll_error_of_bound env w s _ _ _ _ hd hb]
    exact aggregate_eq_none _

/-- Witness of C3: the example directory, where the users query and the two
single-level counts succeed and seven sub-queries fail. -/
theorem scrapeAll_partial_failure_isolation_witness :
    (scrapeAll exampleEnv [] emptyState "localhost:389" "cn=Directory Manager" "secret"
        "example.org").2.1
        = ([] ++ [Event.Dial "tcp" "localhost:389", Event.Bind "cn=Directory Manager" "secret"])
            ++ (scrapeRequests (suffixOf "example.org")).map Event.Search ++ [Event.Close]
    ∧ (scrapeRequests (suffixOf "example.org")).length = 11
    ∧ (subQueryErrors exampleEnv
        ([] ++ [Event.Dial "tcp" "localhost:389", Event.Bind "cn=Directory Manager" "secret"])
        emptyState (suffixOf "example.org")).length = 11
    ∧ (scrapeAll exampleEnv [] emptyState "localhost:389" "cn=Directory Manager" "secret"
        "example.org").1
        = aggregate (subQueryErrors exampleEnv
            ([] ++ [Event.Dial "tcp" "localhost:389", Event.Bind "cn=Directory Manager" "secret"])
            emptyState (suffixOf "example.org"))
    ∧ (∀ errs, (scrapeAll exampleEnv [] emptyState "localhost:389" "cn=Directory Manager"
        "secret" "example.org").1 = some errs →
        errs = .multi (subQueryErrors exampleEnv
            ([] ++ [Event.Dial "tcp" "localhost:389", Event.Bind "cn=Directory Manager" "secret"])
            emptyState (suffixOf "example.org")).reduceOption)
    ∧ ((scrapeAll exampleEnv [] emptyState "localhost:389" "cn=Directory Manager" "secret"
        "example.org").1 = none ↔
        ∀ o ∈ subQueryErrors exampleEnv
            ([] ++ [Event.Dial "tcp" "localhost:389", Event.Bind "cn=Directory Manager" "secret"])
            emptyState (suffixOf "example.org"), o = none)
    ∧ (∀ (k : Nat) (m : CountMetric), (countMetrics (suffixOf "example.org"))[k]? = some m →
        (scrapeAll exampleEnv [] emptyState "localhost:389" "cn=Directory Manager" "secret"
          "example.org").2.2.gauges m.gauge m.labels
          = some (m.run exampleEnv (connBefore
              ([] ++ [Event.Dial "tcp" "localhost:389",
                Event.Bind "cn=Directory Manager" "secret"])
              (suffixOf "example.org") k)).1.1)
    ∧ (scrapeAll exampleEnv [] emptyState "localhost:389" "cn=Directory Manager" "secret"
        "example.org").2.2.gauges .replicationStatusGauge
        = (ldapReplicationQuery exampleEnv
            (connBefore ([] ++ [Event.Dial "tcp" "localhost:389",
              Event.Bind "cn=Directory Manager" "secret"])
              (suffixOf "example.org") 10)
            (suffixOf "example.org") emptyState).2.2.gauges .replicationStatusGauge :=
  scrapeAll_partial_failure_isolation exampleEnv [] emptyState "localhost:389"
    "cn=Directory Manager" "secret" "example.org" rfl rfl

end exporter

namespace exporter

theorem scrapeAll_of_dial_error (env : Env) (w : Conn) (s : State)
    (ldapAddr ldapUser ldapPass ipaDomain : String) (err : GoError)
    (hd : env.Dial w "tcp" ldapAddr = some err) :
    scrapeAll env w s ldapAddr ldapUser ldapPass ipaDomain
      = (some (.plain err), w ++ [Event.Dial "tcp" ldapAddr], s) := by
  unfold scrapeAll
  simp only [hd]

theorem scrapeAll_of_bind_error (env : Env) (w : Conn) (s : State)
    (ldapAddr ldapUser ldapPass ipaDomain : String) (err : GoError)
    (hd : env.Dial w "tcp" ldapAddr = none)
    (hb : env.Bind (w ++ [Event.Dial "tcp" ldapAddr]) ldapUser ldapPass = some err) :
    scrapeAll env w s ldapAddr ldapUser ldapPass ipaDomain
      = (some (.plain err),
          w ++ [Event.Dial "tcp" ldapAddr, Event.Bind ldapUser ldapPass, Event.Close], s) := by
  unfold scrapeAll
  simp only [hd, hb]
  simp

/-- C6. If the dial fails, or the dial succeeds and the bind fails, `scrapeAll`
returns that very error and leaves the whole state as it was: no gauge series of
any metric is created or modified, the counter and the log are untouched.  No
search is sent: after a failed dial the only new event is the dial, after a failed
bind the new events are the dial, the bind and the deferred close. -/
theorem scrapeAll_connect_failure (env : Env) (w : Conn) (s : State)
    (ldapAddr ldapUser ldapPass ipaDomain : String) (err : GoError)
    (h : env.Dial w "tcp" ldapAddr = some err
      ∨ (env.Dial w "tcp" ldapAddr = none
          ∧ env.Bind (w ++ [Event.Dial "tcp" ldapAddr]) ldapUser ldapPass = some err)) :
    (scrapeAll env w s ldapAddr ldapUser ldapPass ipaDomain).1 = some (.plain err)
    ∧ (scrapeAll env w s ldapAddr ldapUser ldapPass ipaDomain).2.2 = s
    ∧ (∀ g lvs, (scrapeAll env w s ldapAddr ldapUser ldapPass ipaDomain).2.2.gauges g lvs
        = s.gauges g lvs)
    ∧ (∀ req, Event.Search req ∉
        ((scrapeAll env w s ldapAddr ldapUser ldapPass ipaDomain).2.1).drop w.length)
    ∧ (env.Dial w "tcp" ldapAddr = some err →
        (scrapeAll env w s ldapAddr ldapUser ldapPass ipaDomain).2.1
          = w ++ [Event.Dial "tcp" ldapAddr])
    ∧ (env.Dial w "tcp" ldapAddr = none →
        (scrapeAll env w s ldapAddr ldapUser ldapPass ipaDomain).2.1
          = w ++ [Event.Dial "tcp" ldapAddr, Event.Bind ldapUser ldapPass, Event.Close]) := by
  rcases h with hd | ⟨hd, hb⟩
  · rw [scrapeAll_of_dial_error env w s _ _ _ _ err hd]
    simp [hd]
  · rw [scrapeAll_of_bind_error env w s _ _ _ _ err hd hb]
    simp [hd]

/-- Witness of C6: the bind is refused, after earlier cycles had published
values. -/
theorem scrapeAll_connect_failure_witness :
    (scrapeAll refusedEnv [] earlierState "localhost:389" "cn=Directory Manager" "wrong"
        "example.org").1
        = some (.plain ⟨"LDAP Result Code 49 \"Invalid Credentials\""⟩)
    ∧ (scrapeAll refusedEnv [] earlierState "localhost:389" "cn=Directory Manager" "wrong"
        "example.org").2.2 = earlierState
    ∧ (∀ g lvs, (scrapeAll refusedEnv [] earlierState "localhost:389" "cn=Directory Manager"
        "wrong" "example.org").2.2.gauges g lvs = earlierState.gauges g lvs)
    ∧ (∀ req, Event.Search req ∉
        ((scrapeAll refusedEnv [] earlierState "localhost:389" "cn=Directory Manager" "wrong"
          "example.org").2.1).drop ([] : Conn).length)
    ∧ (refusedEnv.Dial [] "tcp" "localhost:389"
          = some ⟨"LDAP Result Code 49 \"Invalid Credentials\""⟩ →
        (scrapeAll refusedEnv [] earlierState "localhost:389" "cn=Directory Manager" "wrong"
          "example.org").2.1 = [] ++ [Event.Dial "tcp" "localhost:389"])
    ∧ (refusedEnv.Dial [] "tcp" "localhost:389" = none →
        (scrapeAll refusedEnv [] earlierState "localhost:389" "cn=Directory Manager" "wrong"
          "example.org").2.1
          = [] ++ [Event.Dial "tcp" "localhost:389", Event.Bind "cn=Directory Manager" "wrong",
              Event.Close]) :=
  scrapeAll_connect_failure refusedEnv [] earlierState "localhost:389" "cn=Directory Manager"
    "wrong" "example.org" ⟨"LDAP Result Code 49 \"Invalid Credentials\""⟩ (Or.inr ⟨rfl, rfl⟩)

theorem ldapSubordinatesQuery_sentinel (env : Env) (l : Conn) (baseDN searchFilter : String)
    (h : (ldapSubordinatesQuery env l baseDN searchFilter).1.2 ≠ none) :
    (ldapSubordinatesQuery env l baseDN searchFilter).1.1 = Float64.ofInt (-1) := by
  rw [ldapSubordinatesQuery_eq] at h ⊢
  cases hs : env.Search l (subordinatesRequest baseDN searchFilter) with
  | error err => simp
  | ok sr =>
    cases he : sr.Entries with
    | nil => simp [he]
    | cons e0 rest =>
      cases hp : env.ParseFloat (e0.GetAttributeValue "numSubordinates") 64 with
      | error err => simp [he, hp]
      | ok num => simp [hs, he, hp] at h

theorem ldapCountQuery_sentinel (env : Env) (l : Conn) (baseDN searchFilter attr : String)
    (scope : Nat) (h : (ldapCountQuery env l baseDN searchFilter attr scope).1.2 ≠ none) :
    (ldapCountQuery env l baseDN searchFilter attr scope).1.1 = Float64.ofInt (-1) := by
  rw [ldapCountQuery_eq] at h ⊢
  cases hs : env.Search l (countRequest baseDN searchFilter attr scope) with
  | error err => simp
  | ok sr => simp [hs] at h

theorem countMetrics_sentinel (env : Env) (l : Conn) (suffix : String) (k : Nat)
    (m : CountMetric) (hm : (countMetrics suffix)[k]? = some m)
    (h : (m.run env l).1.2 ≠ none) : (m.run env l).1.1 = Float64.ofInt (-1) := by
  match k, hm with
  | 0, hm | 1, hm | 2, hm | 3, hm | 4, hm | 5, hm | 6, hm =>
    simp [countMetrics] at hm
    subst hm
    exact ldapSubordinatesQuery_sentinel _ _ _ _ h
  | 7, hm | 8, hm | 9, hm =>
    simp [countMetrics] at hm
    subst hm
    exact ldapCountQuery_sentinel _ _ _ _ _ _ h
  | k + 10, hm => simp [countMetrics] at hm

/-- C8. In a cycle that gets past dial and bind, each of the ten count metrics
whose sub-query fails has its series set to -1, whatever it held before; and when
the replication search fails, the replication series are exactly those of before
the cycle. -/
theorem scrapeAll_sentinel_on_failure (env : Env) (w : Conn) (s : State)
    (ldapAddr ldapUser ldapPass ipaDomain : String)
    (hd : env.Dial w "tcp" ldapAddr = none)
    (hb : env.Bind (w ++ [Event.Dial "tcp" ldapAddr]) ldapUser ldapPass = none) :
    (∀ (k : Nat) (m : CountMetric), (countMetrics (suffixOf ipaDomain))[k]? = some m →
        (m.run env (connBefore
            (w ++ [Event.Dial "tcp" ldapAddr, Event.Bind ldapUser ldapPass])
            (suffixOf ipaDomain) k)).1.2 ≠ none →
        (scrapeAll env w s ldapAddr ldapUser ldapPass ipaDomain).2.2.gauges m.gauge m.labels
          = some (Float64.finite (-1)))
    ∧ ((ldapReplicationQuery env
          (connBefore (w ++ [Event.Dial "tcp" ldapAddr, Event.Bind ldapUser ldapPass])
            (suffixOf ipaDomain) 10) (suffixOf ipaDomain) s).1 ≠ none →
        (scrapeAll env w s ldapAddr ldapUser ldapPass ipaDomain).2.2.gauges
            .replicationStatusGauge
          = s.gauges .replicationStatusGauge)
    ∧ (countMetrics (suffixOf ipaDomain)).length = 10 := by
  refine ⟨?_, ?_, by simp [countMetrics]⟩
  · intro k m hm hfail
    rw [scrapeAll_count_gauge_of_bound env w s _ _ _ _ hd hb k m hm,
      countMetrics_sentinel env _ _ k m hm hfail]
    simp [Float64.ofInt]
  · intro hfail
    rw [scrapeAll_replication_gauge_of_bound env w s _ _ _ _ hd hb]
    rw [ldapReplicationQuery_error] at hfail
    rw [ldapReplicationQuery_state]
    cases hs : env.Search
        (connBefore (w ++ [Event.Dial "tcp" ldapAddr, Event.Bind ldapUser ldapPass])
          (suffixOf ipaDomain) 10) (replicationRequest (suffixOf ipaDomain)) with
    | error err => rfl
    | ok sr => simp [hs] at hfail

/-- Witness of C8: the example directory after earlier cycles. -/
theorem scrapeAll_sentinel_on_failure_witness :
    (∀ (k : Nat) (m : CountMetric), (countMetrics (suffixOf "example.org"))[k]? = some m →
        (m.run exampleEnv (connBefore
            ([] ++ [Event.Dial "tcp" "localhost:389", Event.Bind "cn=Directory Manager" "secret"])
            (suffixOf "example.org") k)).1.2 ≠ none →
        (scrapeAll exampleEnv [] earlierState "localhost:389" "cn=Directory Manager" "secret"
          "example.org").2.2.gauges m.gauge m.labels = some (Float64.finite (-1)))
    ∧ ((ldapReplicationQuery exampleEnv
          (connBefore ([] ++ [Event.Dial "tcp" "localhost:389",
            Event.Bind "cn=Directory Manager" "secret"])
            (suffixOf "example.org") 10) (suffixOf "example.org") earlierState).1 ≠ none →
        (scrapeAll exampleEnv [] earlierState "localhost:389" "cn=Directory Manager" "secret"
          "example.org").2.2.gauges .replicationStatusGauge
          = earlierState.gauges .replicationStatusGauge)
    ∧ (countMetrics (suffixOf "example.org")).length = 10 :=
  scrapeAll_sentinel_on_failure exampleEnv [] earlierState "localhost:389"
    "cn=Directory Manager" "secret" "example.org" rfl rfl

end exporter

namespace exporter

/-- C9, counterexample.  The directory reports the `numSubordinates` text `-5`
for the users container: the sub-query returns -5 with no error, the whole cycle
returns no error, and the active users series holds the negative value -5. -/
theorem negative_gauge_without_failure :
    (ldapSubordinatesQuery negativeEnv
        [Event.Dial "tcp" "localhost:389", Event.Bind "cn=Directory Manager" "secret"]
        "cn=users,cn=accounts,dc=example,dc=org" "(objectClass=*)").1
        = (Float64.finite (-5), none)
    ∧ (Float64.finite (-5)).isNegative = true
    ∧ (scrapeAll negativeEnv [] emptyState "localhost:389" "cn=Directory Manager" "secret"
        "example.org").1 = none
    ∧ (scrapeAll negativeEnv [] emptyState "localhost:389" "cn=Directory Manager" "secret"
        "example.org").2.2.gauges .usersGauge ["active"] = some (Float64.finite (-5)) := by
  refine ⟨by decide, by decide, by decide, by decide⟩

theorem ldapCountQuery_nonneg (env : Env) (l : Conn) (baseDN searchFilter attr : String)
    (scope : Nat) (h : (ldapCountQuery env l baseDN searchFilter attr scope).1.2 = none) :
    (ldapCountQuery env l baseDN searchFilter attr scope).1.1.isNonNegative = true := by
  rw [ldapCountQuery_eq] at h ⊢
  cases hs : env.Search l (countRequest baseDN searchFilter attr scope) with
  | error err => simp [hs] at h
  | ok sr => simp [Float64.ofInt, Float64.isNonNegative]

theorem isNegative_isNonNegative (v : Float64) (hn : v.isNegative = true)
    (hp : v.isNonNegative = true) : False := by
  cases v with
  | finite q =>
    simp [Float64.isNegative, Float64.isNonNegative] at hn hp
    exact absurd hn (not_lt.2 hp)
  | posInf => simp [Float64.isNegative] at hn
  | negInf => simp [Float64.isNonNegative] at hp
  | nan => simp [Float64.isNegative] at hn

theorem ldapSubordinatesQuery_parsed (env : Env) (l : Conn) (baseDN searchFilter : String)
    (h : (ldapSubordinatesQuery env l baseDN searchFilter).1.2 = none) :
    ∃ sr e0 rest, env.Search l (subordinatesRequest baseDN searchFilter) = .ok sr
      ∧ sr.Entries = e0 :: rest
      ∧ env.ParseFloat (e0.GetAttributeValue "numSubordinates") 64
          = .ok (ldapSubordinatesQuery env l baseDN searchFilter).1.1 := by
  rw [ldapSubordinatesQuery_eq] at h ⊢
  cases hs : env.Search l (subordinatesRequest baseDN searchFilter) with
  | error err => simp [hs] at h
  | ok sr =>
    cases he : sr.Entries with
    | nil => simp [hs, he] at h
    | cons e0 rest =>
      cases hp : env.ParseFloat (e0.GetAttributeValue "numSubordinates") 64 with
      | error err => simp [hs, he, hp] at h
      | ok num => exact ⟨sr, e0, rest, rfl, he, by simp [he, hp]⟩

theorem ldapSubordinatesQuery_failed_or_parsed (env : Env) (l : Conn)
    (baseDN searchFilter : String) (v : Float64)
    (hv : (ldapSubordinatesQuery env l baseDN searchFilter).1.1 = v) :
    (ldapSubordinatesQuery env l baseDN searchFilter).1.2 ≠ none
    ∨ ∃ sr e0 rest, env.Search l (subordinatesRequest baseDN searchFilter) = .ok sr
        ∧ sr.Entries = e0 :: rest
        ∧ env.ParseFloat (e0.GetAttributeValue "numSubordinates") 64 = .ok v := by
  by_cases hnone : (ldapSubordinatesQuery env l baseDN searchFilter).1.2 = none
  · right
    have := ldapSubordinatesQuery_parsed env l baseDN searchFilter hnone
    rw [hv] at this
    exact this
  · exact Or.inl hnone

/-- C9, as amended.  In a cycle that gets past dial and bind, a negative value on
one of the three entry-count series (hbac rules, dns zones, replication conflicts)
means that its sub-query failed in that cycle, because `ldapCountQuery` without
error returns a non-negative value.  A negative value on one of the seven
subordinate-count series means that its sub-query failed or that the
`numSubordinates` text of the first entry was parsed, without error, to that
negative number: `ldapSubordinatesQuery` without error returns exactly what
`ParseFloat` read. -/
theorem negative_gauge_meaning (env : Env) (w : Conn) (s : State)
    (ldapAddr ldapUser ldapPass ipaDomain : String)
    (hd : env.Dial w "tcp" ldapAddr = none)
    (hb : env.Bind (w ++ [Event.Dial "tcp" ldapAddr]) ldapUser ldapPass = none) :
    (∀ (k : Nat) (m : CountMetric), 7 ≤ k →
        (countMetrics (suffixOf ipaDomain))[k]? = some m → ∀ v,
        (scrapeAll env w s ldapAddr ldapUser ldapPass ipaDomain).2.2.gauges m.gauge m.labels
          = some v →
        v.isNegative = true →
        (m.run env (connBefore
            (w ++ [Event.Dial "tcp" ldapAddr, Event.Bind ldapUser ldapPass])
            (suffixOf ipaDomain) k)).1.2 ≠ none)
    ∧ (∀ (k : Nat) (m : CountMetric), k < 7 →
        (countMetrics (suffixOf ipaDomain))[k]? = some m → ∀ v,
        (scrapeAll env w s ldapAddr ldapUser ldapPass ipaDomain).2.2.gauges m.gauge m.labels
          = some v →
        v.isNegative = true →
        (m.run env (connBefore
            (w ++ [Event.Dial "tcp" ldapAddr, Event.Bind ldapUser ldapPass])
            (suffixOf ipaDomain) k)).1.2 ≠ none
        ∨ ∃ sr e0 rest,
            env.Search (connBefore
                (w ++ [Event.Dial "tcp" ldapAddr, Event.Bind ldapUser ldapPass])
                (suffixOf ipaDomain) k) m.request = .ok sr
            ∧ sr.Entries = e0 :: rest
            ∧ env.ParseFloat (e0.GetAttributeValue "numSubordinates") 64 = .ok v)
    ∧ (∀ (l : Conn) (baseDN searchFilter attr : String) (scope : Nat),
        (ldapCountQuery env l baseDN searchFilter attr scope).1.2 = none →
        (ldapCountQuery env l baseDN searchFilter attr scope).1.1.isNonNegative = true)
    ∧ (∀ (l : Conn) (baseDN searchFilter : String),
        (ldapSubordinatesQuery env l baseDN searchFilter).1.2 = none →
        ∃ sr e0 rest, env.Search l (subordinatesRequest baseDN searchFilter) = .ok sr
          ∧ sr.Entries = e0 :: rest
          ∧ env.ParseFloat (e0.GetAttributeValue "numSubordinates") 64
              = .ok (ldapSubordinatesQuery env l baseDN searchFilter).1.1) := by
  refine ⟨?_, ?_, fun l b f a sc h => ldapCountQuery_nonneg env l b f a sc h,
    fun l b f h => ldapSubordinatesQuery_parsed env l b f h⟩
  · intro k m hk hm v hv hneg hnone
    rw [scrapeAll_count_gauge_of_bound env w s _ _ _ _ hd hb k m hm] at hv
    have hv2 := Option.some.inj hv
    match k, hk, hm with
    | 7, _, hm | 8, _, hm | 9, _, hm =>
      simp [countMetrics] at hm
      subst hm
      have := ldapCountQuery_nonneg _ _ _ _ _ _ hnone
      rw [hv2] at this
      exact isNegative_isNonNegative v hneg this
    | k + 10, _, hm => simp [countMetrics] at hm
  · intro k m hk hm v hv hneg
    rw [scrapeAll_count_gauge_of_bound env w s _ _ _ _ hd hb k m hm] at hv
    have hv2 := Option.some.inj hv
    match k, hk, hm with
    | 0, _, hm | 1, _, hm | 2, _, hm | 3, _, hm | 4, _, hm | 5, _, hm | 6, _, hm =>
      simp [countMetrics] at hm
      subst hm
      exact ldapSubordinatesQuery_failed_or_parsed _ _ _ _ v hv2

/-- Witness of C9 as amended: the directory that reports `-5`. -/
theorem negative_gauge_meaning_witness :
    (∀ (k : Nat) (m : CountMetric), 7 ≤ k →
        (countMetrics (suffixOf "example.org"))[k]? = some m → ∀ v,
        (scrapeAll negativeEnv [] emptyState "localhost:389" "cn=Directory Manager" "secret"
          "example.org").2.2.gauges m.gauge m.labels = some v →
        v.isNegative = true →
        (m.run negativeEnv (connBefore
            ([] ++ [Event.Dial "tcp" "localhost:389", Event.Bind "cn=Directory Manager" "secret"])
            (suffixOf "example.org") k)).1.2 ≠ none)
    ∧ (∀ (k : Nat) (m : CountMetric), k < 7 →
        (countMetrics (suffixOf "example.org"))[k]? = some m → ∀ v,
        (scrapeAll negativeEnv [] emptyState "localhost:389" "cn=Directory Manager" "secret"
          "example.org").2.2.gauges m.gauge m.labels = some v →
        v.isNegative = true →
        (m.run negativeEnv (connBefore
            ([] ++ [Event.Dial "tcp" "localhost:389", Event.Bind "cn=Directory Manager" "secret"])
            (suffixOf "example.org") k)).1.2 ≠ none
        ∨ ∃ sr e0 rest,
            negativeEnv.Search (connBefore
                ([] ++ [Event.Dial "tcp" "localhost:389",
                  Event.Bind "cn=Directory Manager" "secret"])
                (suffixOf "example.org") k) m.request = .ok sr
            ∧ sr.Entries = e0 :: rest
            ∧ negativeEnv.ParseFloat (e0.GetAttributeValue "numSubordinates") 64 = .ok v)
    ∧ (∀ (l : Conn) (baseDN searchFilter attr : String) (scope : Nat),
        (ldapCountQuery negativeEnv l baseDN searchFilter attr scope).1.2 = none →
        (ldapCountQuery negativeEnv l baseDN searchFilter attr scope).1.1.isNonNegative = true)
    ∧ (∀ (l : Conn) (baseDN searchFilter : String),
        (ldapSubordinatesQuery negativeEnv l baseDN searchFilter).1.2 = none →
        ∃ sr e0 rest, negativeEnv.Search l (subordinatesRequest baseDN searchFilter) = .ok sr
          ∧ sr.Entries = e0 :: rest
          ∧ negativeEnv.ParseFloat (e0.GetAttributeValue "numSubordinates") 64
              = .ok (ldapSubordinatesQuery negativeEnv l baseDN searchFilter).1.1) :=
  negative_gauge_meaning negativeEnv [] emptyState "localhost:389" "cn=Directory Manager"
    "secret" "example.org" rfl rfl

end exporter

namespace exporter

theorem scrapeAll_frame (env : Env) (w : Conn) (s : State)
    (ldapAddr ldapUser ldapPass ipaDomain : String) :
    (scrapeAll env w s ldapAddr ldapUser ldapPass ipaDomain).2.2.scrapeCounter
        = s.scrapeCounter
    ∧ (scrapeAll env w s ldapAddr ldapUser ldapPass ipaDomain).2.2.gauges .scrapeDurationGauge
        = s.gauges .scrapeDurationGauge
    ∧ ∃ evs, (scrapeAll env w s ldapAddr ldapUser ldapPass ipaDomain).2.1 = w ++ evs := by
  cases hd : env.Dial w "tcp" ldapAddr with
  | some err =>
    rw [scrapeAll_of_dial_error env w s _ _ _ _ err hd]
    exact ⟨rfl, rfl, _, rfl⟩
  | none =>
    cases hb : env.Bind (w ++ [Event.Dial "tcp" ldapAddr]) ldapUser ldapPass with
    | some err =>
      rw [scrapeAll_of_bind_error env w s _ _ _ _ err hd hb]
      exact ⟨rfl, rfl, _, rfl⟩
    | none =>
      refine ⟨?_, ?_, ?_⟩
      · unfold scrapeAll
        simp only [hd, hb]
        simp [ldapReplicationQuery_scrapeCounter]
      · funext lvs
        unfold scrapeAll
        simp only [hd, hb]
        simp [ldapReplicationQuery_gauges_other]
      · rw [scrapeAll_conn_of_bound env w s _ _ _ _ hd hb]
        exact ⟨[Event.Dial "tcp" ldapAddr, Event.Bind ldapUser ldapPass]
          ++ (scrapeRequests (suffixOf ipaDomain)).map Event.Search ++ [Event.Close],
          by simp only [List.append_assoc]⟩

theorem scrapeAll_eq_none_iff (env : Env) (w : Conn) (s : State)
    (ldapAddr ldapUser ldapPass ipaDomain : String) :
    (scrapeAll env w s ldapAddr ldapUser ldapPass ipaDomain).1 = none ↔
      env.Dial w "tcp" ldapAddr = none
      ∧ env.Bind (w ++ [Event.Dial "tcp" ldapAddr]) ldapUser ldapPass = none
      ∧ ∀ o ∈ subQueryErrors env
          (w ++ [Event.Dial "tcp" ldapAddr, Event.Bind ldapUser ldapPass]) s
          (suffixOf ipaDomain), o = none := by
  cases hd : env.Dial w "tcp" ldapAddr with
  | some err =>
    rw [scrapeAll_of_dial_error env w s _ _ _ _ err hd]
    simp
  | none =>
    cases hb : env.Bind (w ++ [Event.Dial "tcp" ldapAddr]) ldapUser ldapPass with
    | some err =>
      rw [scrapeAll_of_bind_error env w s _ _ _ _ err hd hb]
      simp
    | none =>
      rw [scrapeAll_error_of_bound env w s _ _ _ _ hd hb, aggregate_eq_none]
      simp

theorem Seconds_nonneg (d : Int) (h : 0 ≤ d) : ∃ q : ℚ, 0 ≤ q ∧ Seconds d = .finite q := by
  refine ⟨_, ?_, rfl⟩
  have h1 : (0 : Int) ≤ d.tdiv 1000000000 := Int.tdiv_nonneg h (by decide)
  have h2 : (0 : Int) ≤ d.tmod 1000000000 := Int.tmod_nonneg _ h
  have h3 : (0 : ℚ) ≤ ((d.tdiv 1000000000 : Int) : ℚ) := by exact_mod_cast h1
  have h4 : (0 : ℚ) ≤ ((d.tmod 1000000000 : Int) : ℚ) := by exact_mod_cast h2
  positivity

theorem ScrapeMetrics_state (env : Env) (w : Conn) (s : State)
    (ldapAddr ldapUser ldapPass ipaDomain : String) :
    (ScrapeMetrics env w s ldapAddr ldapUser ldapPass ipaDomain).2.scrapeCounter
        = s.scrapeCounter.Inc
            [if (scrapeAll env (w ++ [Event.Now]) s ldapAddr ldapUser ldapPass ipaDomain).1
                = none then "ok" else "fail"]
    ∧ (ScrapeMetrics env w s ldapAddr ldapUser ldapPass ipaDomain).2.gauges
          .scrapeDurationGauge []
        = some (Seconds ((env.Now
            (scrapeAll env (w ++ [Event.Now]) s ldapAddr ldapUser ldapPass ipaDomain).2.1
              : Int) - (env.Now w : Int))) := by
  have hf := scrapeAll_frame env (w ++ [Event.Now]) s ldapAddr ldapUser ldapPass ipaDomain
  unfold ScrapeMetrics
  cases he : (scrapeAll env (w ++ [Event.Now]) s ldapAddr ldapUser ldapPass ipaDomain).1 with
  | none =>
    refine ⟨?_, ?_⟩
    · funext k
      simp [he, hf.1, CounterVec.Inc]
    · simp [he]
  | some err =>
    refine ⟨?_, ?_⟩
    · funext k
      simp [he, hf.1, CounterVec.Inc]
    · simp [he]

end exporter

namespace exporter

/-- C7. Every call of `ScrapeMetrics` increments exactly one series of the scrape
counter, by exactly 1, and leaves every other series of it unchanged: `ok` when
`scrapeAll` returns no error, that is when dial, bind and all eleven sub-queries
succeed, and `fail` otherwise.  On both paths it sets the duration gauge, to a
non-negative value provided the clock readings never decrease along a history. -/
theorem ScrapeMetrics_outcome (env : Env) (w : Conn) (s : State)
    (ldapAddr ldapUser ldapPass ipaDomain : String)
    (hmono : ∀ l l1 : Conn, env.Now l ≤ env.Now (l ++ l1)) :
    ((scrapeAll env (w ++ [Event.Now]) s ldapAddr ldapUser ldapPass ipaDomain).1 = none →
        ∀ k, (ScrapeMetrics env w s ldapAddr ldapUser ldapPass ipaDomain).2.scrapeCounter k
          = if k = ["ok"] then some ((s.scrapeCounter ["ok"]).getD 0 + 1)
            else s.scrapeCounter k)
    ∧ ((scrapeAll env (w ++ [Event.Now]) s ldapAddr ldapUser ldapPass ipaDomain).1 ≠ none →
        ∀ k, (ScrapeMetrics env w s ldapAddr ldapUser ldapPass ipaDomain).2.scrapeCounter k
          = if k = ["fail"] then some ((s.scrapeCounter ["fail"]).getD 0 + 1)
            else s.scrapeCounter k)
    ∧ ((scrapeAll env (w ++ [Event.Now]) s ldapAddr ldapUser ldapPass ipaDomain).1 = none ↔
        env.Dial (w ++ [Event.Now]) "tcp" ldapAddr = none
        ∧ env.Bind (w ++ [Event.Now] ++ [Event.Dial "tcp" ldapAddr]) ldapUser ldapPass = none
        ∧ ∀ o ∈ subQueryErrors env
            (w ++ [Event.Now] ++ [Event.Dial "tcp" ldapAddr, Event.Bind ldapUser ldapPass]) s
            (suffixOf ipaDomain), o = none)
    ∧ (∃ q : ℚ, 0 ≤ q
        ∧ (ScrapeMetrics env w s ldapAddr ldapUser ldapPass ipaDomain).2.gauges
            .scrapeDurationGauge [] = some (.finite q)) := by
  have hs := ScrapeMetrics_state env w s ldapAddr ldapUser ldapPass ipaDomain
  refine ⟨?_, ?_, scrapeAll_eq_none_iff env _ s _ _ _ _, ?_⟩
  · intro h k
    rw [hs.1, if_pos h]
    by_cases hk : k = ["ok"]
    · subst hk
      simp [CounterVec.Inc]
    · simp [CounterVec.Inc, hk]
  · intro h k
    rw [hs.1, if_neg h]
    by_cases hk : k = ["fail"]
    · subst hk
      simp [CounterVec.Inc]
    · simp [CounterVec.Inc, hk]
  · obtain ⟨evs, hevs⟩ :=
      (scrapeAll_frame env (w ++ [Event.Now]) s ldapAddr ldapUser ldapPass ipaDomain).2.2
    have hle : env.Now w
        ≤ env.Now (scrapeAll env (w ++ [Event.Now]) s ldapAddr ldapUser ldapPass ipaDomain).2.1 := by
      rw [hevs, List.append_assoc]
      exact hmono w _
    have hd : (0 : Int) ≤ (env.Now
        (scrapeAll env (w ++ [Event.Now]) s ldapAddr ldapUser ldapPass ipaDomain).2.1 : Int)
          - (env.Now w : Int) := by
      omega
    obtain ⟨q, hq, hq2⟩ := Seconds_nonneg _ hd
    exact ⟨q, hq, by rw [hs.2, hq2]⟩

/-- Witness of C7: a cycle on the example directory, where seven sub-queries
fail, after three successful cycles. -/
theorem ScrapeMetrics_outcome_witness :
    ((scrapeAll exampleEnv ([] ++ [Event.Now]) earlierState "localhost:389"
        "cn=Directory Manager" "secret" "example.org").1 = none →
        ∀ k, (ScrapeMetrics exampleEnv [] earlierState "localhost:389" "cn=Directory Manager"
          "secret" "example.org").2.scrapeCounter k
          = if k = ["ok"] then some ((earlierState.scrapeCounter ["ok"]).getD 0 + 1)
            else earlierState.scrapeCounter k)
    ∧ ((scrapeAll exampleEnv ([] ++ [Event.Now]) earlierState "localhost:389"
        "cn=Directory Manager" "secret" "example.org").1 ≠ none →
        ∀ k, (ScrapeMetrics exampleEnv [] earlierState "localhost:389" "cn=Directory Manager"
          "secret" "example.org").2.scrapeCounter k
          = if k = ["fail"] then some ((earlierState.scrapeCounter ["fail"]).getD 0 + 1)
            else earlierState.scrapeCounter k)
    ∧ ((scrapeAll exampleEnv ([] ++ [Event.Now]) earlierState "localhost:389"
        "cn=Directory Manager" "secret" "example.org").1 = none ↔
        exampleEnv.Dial ([] ++ [Event.Now]) "tcp" "localhost:389" = none
        ∧ exampleEnv.Bind ([] ++ [Event.Now] ++ [Event.Dial "tcp" "localhost:389"])
            "cn=Directory Manager" "secret" = none
        ∧ ∀ o ∈ subQueryErrors exampleEnv
            ([] ++ [Event.Now] ++ [Event.Dial "tcp" "localhost:389",
              Event.Bind "cn=Directory Manager" "secret"]) earlierState
            (suffixOf "example.org"), o = none)
    ∧ (∃ q : ℚ, 0 ≤ q
        ∧ (ScrapeMetrics exampleEnv [] earlierState "localhost:389" "cn=Directory Manager"
            "secret" "example.org").2.gauges .scrapeDurationGauge [] = some (.finite q)) :=
  ScrapeMetrics_outcome exampleEnv [] earlierState "localhost:389" "cn=Directory Manager"
    "secret" "example.org"
    (fun l l1 => by simp [exampleEnv])

end exporter

namespace exporter

/-- The cycle on the example directory, evaluated: the users query and the two
single-level counts publish their results, the seven failed metrics publish -1,
the replication series are classified, the cycle counts as failed and its fifteen
interactions after the first clock reading take fifteen seconds. -/
theorem exampleEnv_cycle :
    (ScrapeMetrics exampleEnv [] earlierState "localhost:389" "cn=Directory Manager" "secret"
        "example.org").2.gauges .usersGauge ["active"] = some (Float64.finite 42)
    ∧ (ScrapeMetrics exampleEnv [] earlierState "localhost:389" "cn=Directory Manager" "secret"
        "example.org").2.gauges .usersGauge ["staged"] = some (Float64.finite (-1))
    ∧ (ScrapeMetrics exampleEnv [] earlierState "localhost:389" "cn=Directory Manager" "secret"
        "example.org").2.gauges .hbacRulesGauge [] = some (Float64.finite 1)
    ∧ (ScrapeMetrics exampleEnv [] earlierState "localhost:389" "cn=Directory Manager" "secret"
        "example.org").2.gauges .ldapConflictsGauge [] = some (Float64.finite (-1))
    ∧ (ScrapeMetrics exampleEnv [] earlierState "localhost:389" "cn=Directory Manager" "secret"
        "example.org").2.gauges .replicationStatusGauge ["h1"] = some (Float64.finite 1)
    ∧ (ScrapeMetrics exampleEnv [] earlierState "localhost:389" "cn=Directory Manager" "secret"
        "example.org").2.gauges .replicationStatusGauge ["h2"] = some (Float64.finite 0)
    ∧ (ScrapeMetrics exampleEnv [] earlierState "localhost:389" "cn=Directory Manager" "secret"
        "example.org").2.scrapeCounter ["fail"] = some 1
    ∧ (ScrapeMetrics exampleEnv [] earlierState "localhost:389" "cn=Directory Manager" "secret"
        "example.org").2.scrapeCounter ["ok"] = some 3
    ∧ (ScrapeMetrics exampleEnv [] earlierState "localhost:389" "cn=Directory Manager" "secret"
        "example.org").1.length = 16
    ∧ (subQueryErrors exampleEnv
        [Event.Dial "tcp" "localhost:389", Event.Bind "cn=Directory Manager" "secret"]
        emptyState (suffixOf "example.org")).reduceOption.length = 7 := by
  refine ⟨by decide, by decide, by decide, by decide, by decide, by decide, by decide,
    by decide, by decide, by decide⟩

end exporter
